import Mathlib

/-!
# Verification of the dates-le date-recognition and analysis engine

This file is a shallow embedding, in Lean 4, of the core of the `dates-le`
editor extension: the generic line scanner (`src/extraction/dateExtractor`),
the overlap resolver and deduplicator, the format router (`src/extraction/extract.ts`),
the specialised log / HTML / JavaScript scanners, and the statistical analysis
engine (`calculateDateStatistics`, `detectDateAnomalies`, `detectDatePatterns`,
`clusterDates`, `detectDateGaps`).

Modelling conventions:
* JavaScript numbers carrying timestamps are modelled by `JsNum`: either `NaN`
  or an integer (every timestamp the program manipulates is integral).
* `Date.parse` is host-dependent, so scanners take it as a parameter
  `dp : String → JsNum`.
* Locale-dependent `Date` accessors (`getFullYear`, `getTimezoneOffset`, ...)
  are collected in a `JsDateEnv` parameter.
* JavaScript exceptions are modelled with `Except`; `try/catch` becomes a
  `match` on the `Except` value.
* The concrete regular expressions of the source are transliterated into
  deterministic matcher functions with the exact JavaScript `exec`-loop
  semantics (leftmost match, greedy quantifiers, `lastIndex` advancing past
  each match).
-/

namespace DatesLe

/-- A JavaScript number as used for timestamps: `NaN` or an integer value. -/
inductive JsNum where
  | nan : JsNum
  | int (v : Int) : JsNum
  deriving DecidableEq, Repr

/-- JavaScript truthiness of a number: `NaN` and `0` are falsy. -/
def JsNum.truthy : JsNum → Bool
  | .nan => false
  | .int v => v != 0

/-- Truthiness of an optional number (TypeScript `number | undefined`):
`undefined` is falsy. -/
def jsTruthy : Option JsNum → Bool
  | none => false
  | some t => t.truthy

/-- `Number.isNaN`. -/
def JsNum.isNaN : JsNum → Bool
  | .nan => true
  | .int _ => false

/-- The largest representable JavaScript `Date` time value (8.64e15 ms). -/
def maxDateMs : Nat := 8640000000000000

/-- The time value of `new Date(t)`: `TimeClip` sends out-of-range or `NaN`
arguments to an invalid date (`NaN` time value). -/
def newJsDate : JsNum → JsNum
  | .nan => .nan
  | .int v => if v.natAbs ≤ maxDateMs then .int v else .nan

/-- Time value of a `Date` built from an optional timestamp (used after a
truthiness guard, so the `none` case is unreachable in practice). -/
def newJsDateOpt : Option JsNum → JsNum
  | none => .nan
  | some t => newJsDate t

/-- `format` field of a `DateValue` (`src/types.ts`, `DateFormat`). -/
inductive DateFormat where
  | iso | rfc2822 | unix | utc | local | simple | custom | unknown
  deriving DecidableEq, Repr

/-- The string name of a `DateFormat` tag (its TypeScript string-literal value). -/
def DateFormat.tag : DateFormat → String
  | .iso => "iso"
  | .rfc2822 => "rfc2822"
  | .unix => "unix"
  | .utc => "utc"
  | .local => "local"
  | .simple => "simple"
  | .custom => "custom"
  | .unknown => "unknown"

/-- 1-based source position (`src/types.ts`, `DateValue.position`). -/
structure Position where
  line : Nat
  column : Nat
  deriving DecidableEq, Repr

/-- A recognised date occurrence (`src/types.ts`, `DateValue`). -/
structure DateValue where
  value : String
  format : DateFormat
  timestamp : Option JsNum
  position : Option Position
  context : Option String
  deriving DecidableEq, Repr

/-- `FileType` (`src/types.ts`). -/
inductive FileType where
  | json | yaml | yml | csv | xml | log | javascript | html | unknown
  deriving DecidableEq, Repr

/-- A parse error as built by `createErrorResult` (`src/types.ts`, `ParseError`);
only the fields the router actually writes are modelled. -/
structure ParseError where
  category : String
  severity : String
  message : String
  recoverable : Bool
  recoveryAction : String
  timestamp : Int
  deriving DecidableEq, Repr

/-- `ExtractionResult` (`src/types.ts`). -/
structure ExtractionResult where
  success : Bool
  dates : List DateValue
  errors : List ParseError
  deriving DecidableEq, Repr

/-! ## Character helpers (JavaScript regex character classes) -/

/-- JavaScript `\d`. -/
def jsDigit (c : Char) : Bool := '0' ≤ c && c ≤ '9'

/-- JavaScript `\s` (restricted to the characters that occur in a single
line of ASCII text). -/
def jsWs (c : Char) : Bool :=
  c = ' ' || c = '\t' || c = '\r' || c = '\n' || c = '\x0b' || c = '\x0c'

/-- JavaScript `[A-Za-z]`. -/
def jsAlpha (c : Char) : Bool :=
  ('A' ≤ c && c ≤ 'Z') || ('a' ≤ c && c ≤ 'z')

/-- Case-insensitive character comparison (the `i` regex flag, ASCII). -/
def ciEq (c d : Char) : Bool := c.toLower = d.toLower

/-- Matcher primitives work on the remaining input and return the rest after
the matched prefix (`none` = the pattern fails at this position).
Match exactly `n` characters of the class `p`. -/
def expClass (p : Char → Bool) : Nat → List Char → Option (List Char)
  | 0, cs => some cs
  | _ + 1, [] => none
  | n + 1, c :: cs => if p c then expClass p n cs else none

/-- Match one character of the class `p`. -/
def expCls (p : Char → Bool) (cs : List Char) : Option (List Char) :=
  expClass p 1 cs

/-- Match one literal character. -/
def expLit (c : Char) : List Char → Option (List Char)
  | [] => none
  | d :: cs => if d = c then some cs else none

/-- Match a literal string case-insensitively (the `i` regex flag). -/
def expStrCI : List Char → List Char → Option (List Char)
  | [], cs => some cs
  | _ :: _, [] => none
  | l :: ls, c :: cs => if ciEq c l then expStrCI ls cs else none

/-- Greedy `p*`: drop the maximal run of characters of the class `p`
(always succeeds). -/
def expMunch (p : Char → Bool) : List Char → List Char
  | [] => []
  | c :: cs => if p c then expMunch p cs else c :: cs

/-- Greedy `p+`: drop a maximal, non-empty run of characters of class `p`. -/
def expMunch1 (p : Char → Bool) (cs : List Char) : Option (List Char) :=
  match cs with
  | [] => none
  | c :: cs' => if p c then some (expMunch p cs') else none

/-! ## The six generic patterns of `src/extraction/dateExtractor`

Each `...Rest` function is the transliteration of one module-level regex:
applied at a position it returns the input remaining after the match, or
`none` when the pattern does not match at that position.  A regex is written
as the sequence of its atoms (`seqSteps`); greedy optional groups first try
to match and fall back to skipping (`expOpt`); alternatives are tried left
to right (`expAlt`), exactly as a backtracking JavaScript regex engine does. -/

/-- Run a sequence of matcher atoms left to right. -/
def seqSteps (steps : List (List Char → Option (List Char))) (cs : List Char) :
    Option (List Char) :=
  steps.foldl (fun acc step => acc.bind step) (some cs)

/-- Greedy `(?:X)?`: match `X` if possible, otherwise stay in place. -/
def expOpt (m : List Char → Option (List Char)) (cs : List Char) : List Char :=
  (m cs).getD cs

/-- `(?:A|B)`: try `A` first, then `B`. -/
def expAlt (a b : List Char → Option (List Char)) (cs : List Char) :
    Option (List Char) :=
  (a cs).orElse (fun _ => b cs)

/-- `[+-]` -/
def signCls (c : Char) : Bool := c = '+' || c = '-'

/-- `ISO_PATTERN = /(\d{4}-\d{2}-\d{2}T\d{2}:\d{2}:\d{2}(?:\.\d{3})?(?:Z|[+-]\d{2}:\d{2})?)/g` -/
def isoRest (cs : List Char) : Option (List Char) :=
  (seqSteps [expClass jsDigit 4, expLit '-', expClass jsDigit 2, expLit '-',
             expClass jsDigit 2, expLit 'T', expClass jsDigit 2, expLit ':',
             expClass jsDigit 2, expLit ':', expClass jsDigit 2] cs).map fun r =>
    expOpt (expAlt (expLit 'Z')
        (seqSteps [expCls signCls, expClass jsDigit 2, expLit ':', expClass jsDigit 2]))
      (expOpt (seqSteps [expLit '.', expClass jsDigit 3]) r)

/-- `RFC2822_PATTERN = /([A-Za-z]{3},\s\d{2}\s[A-Za-z]{3}\s\d{4}\s\d{2}:\d{2}:\d{2}\s[A-Za-z]{3,4})/g` -/
def rfc2822Rest (cs : List Char) : Option (List Char) :=
  seqSteps [expClass jsAlpha 3, expLit ',', expCls jsWs, expClass jsDigit 2,
            expCls jsWs, expClass jsAlpha 3, expCls jsWs, expClass jsDigit 4,
            expCls jsWs, expClass jsDigit 2, expLit ':', expClass jsDigit 2,
            expLit ':', expClass jsDigit 2, expCls jsWs,
            expAlt (expClass jsAlpha 4) (expClass jsAlpha 3)] cs

/-- `UNIX_PATTERN = /(\d{10,13})/g`: a greedy run of 10 to 13 digits. -/
def unixRest (cs : List Char) : Option (List Char) :=
  let run := cs.takeWhile jsDigit
  if run.length < 10 then none else some (cs.drop (min run.length 13))

/-- `UTC_PATTERN = /([A-Za-z]{3}\s[A-Za-z]{3}\s\d{2}\s\d{4}\s\d{2}:\d{2}:\d{2}\sGMT[+-]\d{4})/g` -/
def utcRest (cs : List Char) : Option (List Char) :=
  seqSteps [expClass jsAlpha 3, expCls jsWs, expClass jsAlpha 3, expCls jsWs,
            expClass jsDigit 2, expCls jsWs, expClass jsDigit 4, expCls jsWs,
            expClass jsDigit 2, expLit ':', expClass jsDigit 2, expLit ':',
            expClass jsDigit 2, expCls jsWs, expLit 'G', expLit 'M', expLit 'T',
            expCls signCls, expClass jsDigit 4] cs

/-- One backtracking branch of `LOCAL_PATTERN` with the three `\d{1,2}`
quantifiers fixed to widths `a`, `b`, `c`. -/
def localRestWith (a b c : Nat) (cs : List Char) : Option (List Char) :=
  seqSteps [expClass jsDigit a, expLit '/', expClass jsDigit b, expLit '/',
            expClass jsDigit 4, expCls jsWs, expClass jsDigit c, expLit ':',
            expClass jsDigit 2, expLit ':', expClass jsDigit 2] cs

/-- `LOCAL_PATTERN = /(\d{1,2}\/\d{1,2}\/\d{4}\s\d{1,2}:\d{2}:\d{2})/g`:
the greedy `\d{1,2}` quantifiers backtrack from 2 to 1, leftmost first. -/
def localRest (cs : List Char) : Option (List Char) :=
  (localRestWith 2 2 2 cs).orElse fun _ =>
  (localRestWith 2 2 1 cs).orElse fun _ =>
  (localRestWith 2 1 2 cs).orElse fun _ =>
  (localRestWith 2 1 1 cs).orElse fun _ =>
  (localRestWith 1 2 2 cs).orElse fun _ =>
  (localRestWith 1 2 1 cs).orElse fun _ =>
  (localRestWith 1 1 2 cs).orElse fun _ =>
  localRestWith 1 1 1 cs

/-- `SIMPLE_DATE_PATTERN = /(\d{4}-\d{2}-\d{2})/g` -/
def simpleRest (cs : List Char) : Option (List Char) :=
  seqSteps [expClass jsDigit 4, expLit '-', expClass jsDigit 2, expLit '-',
            expClass jsDigit 2] cs

/-! ## The `exec` scan loop

`scanWith` is the JavaScript `while ((match = PATTERN.exec(line)) !== null)`
loop for a global regex: try the pattern at each position from left to right;
on a match, record `(match.index, match[0])` and resume at `lastIndex`
(the position just past the match).  All the patterns above only ever return
a proper suffix of their input, so the guard `r.length < cs.length` (which
rules out a non-advancing match) never fails for them. -/
def scanWithF (tryRest : List Char → Option (List Char)) :
    Nat → List Char → Nat → List (Nat × String)
  | 0, _, _ => []
  | _ + 1, [], _ => []
  | fuel + 1, c :: rest, pos =>
    match tryRest (c :: rest) with
    | some r =>
      if r.length < (c :: rest).length then
        let len := (c :: rest).length - r.length
        (pos, ((c :: rest).take len).asString) ::
          scanWithF tryRest fuel r (pos + len)
      else
        scanWithF tryRest fuel rest (pos + 1)
    | none => scanWithF tryRest fuel rest (pos + 1)

/-- The scan loop with enough fuel: every step strictly shrinks the input,
so `cs.length` steps always suffice. -/
def scanWith (tryRest : List Char → Option (List Char)) (cs : List Char)
    (pos : Nat) : List (Nat × String) :=
  scanWithF tryRest cs.length cs pos

/-! ## The generic line scanner (`extractDatesFromLines` and helpers) -/

/-- Split a character list at every newline (the splitter itself dropped). -/
def splitOnNl : List Char → List (List Char)
  | [] => [[]]
  | c :: cs =>
    if c = '\n' then [] :: splitOnNl cs
    else
      match splitOnNl cs with
      | [] => [[c]]
      | l :: ls => (c :: l) :: ls

/-- JavaScript `content.split('\n')`. -/
def jsSplitLines (s : String) : List String := (splitOnNl s.data).map List.asString

/-- JavaScript `line.trim()`: strip whitespace from both ends. -/
def jsTrim (s : String) : String :=
  (((s.data.dropWhile jsWs).reverse.dropWhile jsWs).reverse).asString

/-- `createDateValue` (`dateExtractor`): builds a `DateValue` with
`timestamp = Date.parse(value)` and a 1-based position. -/
def createDateValue (dp : String → JsNum) (value : String) (format : DateFormat)
    (lineIndex columnIndex : Nat) (context : String) : DateValue :=
  { value := value, format := format, timestamp := some (dp value),
    position := some ⟨lineIndex + 1, columnIndex + 1⟩, context := some context }

/-- `extractIsoDate`. -/
def extractIsoDate (dp : String → JsNum) (line : String) (lineIndex : Nat) :
    List DateValue :=
  (scanWith isoRest line.data 0).map fun m =>
    createDateValue dp m.2 .iso lineIndex m.1 (jsTrim line)

/-- `extractRfc2822Date`. -/
def extractRfc2822Date (dp : String → JsNum) (line : String) (lineIndex : Nat) :
    List DateValue :=
  (scanWith rfc2822Rest line.data 0).map fun m =>
    createDateValue dp m.2 .rfc2822 lineIndex m.1 (jsTrim line)

/-- `parseInt(s, 10)` on an all-digit token. -/
def strToInt (s : String) : Int :=
  (s.data.foldl (fun a c => a * 10 + (c.toNat - '0'.toNat)) 0 : Nat)

/-- `isValidUnixTimestamp` (`dateExtractor`): plausible seconds or
milliseconds range. -/
def isValidUnixTimestamp (timestamp : Int) : Bool :=
  (timestamp > 1000000000 && timestamp < 9999999999) ||
  (timestamp > 1000000000000 && timestamp < 9999999999999)

/-- `convertToMilliseconds` (`dateExtractor`): a 10-digit token is seconds. -/
def convertToMilliseconds (value : String) (timestamp : Int) : Int :=
  if value.length = 10 then timestamp * 1000 else timestamp

/-- `extractUnixTimestamp`: for every `UNIX_PATTERN` match, skip it unless
`isValidUnixTimestamp` holds, otherwise emit a `unix` `DateValue` whose
timestamp went through `convertToMilliseconds`. -/
def extractUnixTimestamp (line : String) (lineIndex : Nat) : List DateValue :=
  (scanWith unixRest line.data 0).filterMap fun m =>
    let timestamp := strToInt m.2
    if !isValidUnixTimestamp timestamp then none
    else some
      { value := m.2, format := .unix,
        timestamp := some (.int (convertToMilliseconds m.2 timestamp)),
        position := some ⟨lineIndex + 1, m.1 + 1⟩, context := some (jsTrim line) }

/-- `extractUtcDate`. -/
def extractUtcDate (dp : String → JsNum) (line : String) (lineIndex : Nat) :
    List DateValue :=
  (scanWith utcRest line.data 0).map fun m =>
    createDateValue dp m.2 .utc lineIndex m.1 (jsTrim line)

/-- `extractLocalDate`. -/
def extractLocalDate (dp : String → JsNum) (line : String) (lineIndex : Nat) :
    List DateValue :=
  (scanWith localRest line.data 0).map fun m =>
    createDateValue dp m.2 .local lineIndex m.1 (jsTrim line)

/-- `extractSimpleDate`. -/
def extractSimpleDate (dp : String → JsNum) (line : String) (lineIndex : Nat) :
    List DateValue :=
  (scanWith simpleRest line.data 0).map fun m =>
    createDateValue dp m.2 .simple lineIndex m.1 (jsTrim line)

/-- `extractFromLine`: the six generic extractors in source order (the source
pushes into one shared array, which is concatenation). -/
def extractFromLine (dp : String → JsNum) (line : String) (lineIndex : Nat) :
    List DateValue :=
  extractIsoDate dp line lineIndex ++ extractRfc2822Date dp line lineIndex ++
  extractUnixTimestamp line lineIndex ++ extractUtcDate dp line lineIndex ++
  extractLocalDate dp line lineIndex ++ extractSimpleDate dp line lineIndex

/-- The raw per-line match list accumulated by the loop in
`extractDatesFromLines` before deduplication (empty lines are skipped:
`if (!line) continue`). -/
def rawLineMatches (dp : String → JsNum) (content : String) : List DateValue :=
  ((jsSplitLines content).enum.map fun p =>
    if p.2 = "" then [] else extractFromLine dp p.2 p.1).flatten

/-! ## The overlap resolver and deduplicator (`deduplicateDates`) -/

/-- `b.isPrefixOfList h`: is `n` a prefix of `h`? -/
def listStartsWith : List Char → List Char → Bool
  | [], _ => true
  | _ :: _, [] => false
  | a :: as, b :: bs => a = b && listStartsWith as bs

/-- Is `n` a contiguous sublist of `h`? -/
def listContainsSeq (n : List Char) : List Char → Bool
  | [] => listStartsWith n []
  | c :: t => listStartsWith n (c :: t) || listContainsSeq n t

/-- JavaScript `haystack.includes(needle)`. -/
def strIncludes (haystack needle : String) : Bool :=
  listContainsSeq needle.data haystack.data

/-- The keep-predicate of `filterOverlappingDates`: a `simple`-format match
with a position is dropped when some `iso`-format match on the same line
textually contains its value. -/
def overlapKeep (dates : List DateValue) (date : DateValue) : Bool :=
  if date.format ≠ .simple then true
  else
    match date.position with
    | none => true
    | some p =>
      !(dates.any fun other =>
        other.format = .iso &&
        (match other.position with
         | some q => q.line = p.line
         | none => false) &&
        strIncludes other.value date.value)

/-- `filterOverlappingDates`. -/
def filterOverlappingDates (dates : List DateValue) : List DateValue :=
  dates.filter (overlapKeep dates)

/-- The dedup key `` `${date.value}-${date.position?.line ?? 0}` ``. -/
def dedupKey (date : DateValue) : String :=
  date.value ++ "-" ++ toString (match date.position with
    | some p => p.line
    | none => 0)

/-- `Map.set` on an insertion-ordered association list: an existing key keeps
its insertion position but gets the new value; a new key is appended. -/
def mapSet (m : List (String × DateValue)) (k : String) (v : DateValue) :
    List (String × DateValue) :=
  if m.any (fun p => p.1 = k) then
    m.map (fun p => if p.1 = k then (k, v) else p)
  else m ++ [(k, v)]

/-- `deduplicateByValueAndLine`: fill an insertion-ordered map keyed by
`dedupKey`, then list its values. -/
def deduplicateByValueAndLine (dates : List DateValue) : List DateValue :=
  (dates.foldl (fun m date => mapSet m (dedupKey date) date) []).map (·.2)

/-- `deduplicateDates`: overlap suppression, then (value, line) dedup. -/
def deduplicateDates (dates : List DateValue) : List DateValue :=
  deduplicateByValueAndLine (filterOverlappingDates dates)

/-- `extractDatesFromLines`: scan every line, then deduplicate. -/
def extractDatesFromLines (dp : String → JsNum) (content : String) :
    List DateValue :=
  deduplicateDates (rawLineMatches dp content)

/-! ## Trivial format wrappers (`formats/json.ts`, `yaml.ts`, `csv.ts`, `xml.ts`) -/

/-- `extractFromJson`. -/
def extractFromJson (dp : String → JsNum) (content : String) : List DateValue :=
  extractDatesFromLines dp content

/-- `extractFromYaml`. -/
def extractFromYaml (dp : String → JsNum) (content : String) : List DateValue :=
  extractDatesFromLines dp content

/-- `extractFromCsv`. -/
def extractFromCsv (dp : String → JsNum) (content : String) : List DateValue :=
  extractDatesFromLines dp content

/-- `filterXmlComments` (`formats/xml.ts`): drop lines whose trimmed form
starts with `<!--`. -/
def filterXmlComments (content : String) : String :=
  String.intercalate "\n"
    ((jsSplitLines content).filter fun line =>
      !listStartsWith "<!--".data (jsTrim line).data)

/-- `extractFromXml`. -/
def extractFromXml (dp : String → JsNum) (content : String) : List DateValue :=
  extractDatesFromLines dp (filterXmlComments content)

/-! ## The log scanner (`formats/log.ts`) -/

/-- `LOG_PATTERN = /(\d{4}-\d{2}-\d{2}\s\d{2}:\d{2}:\d{2}(?:\.\d{3})?)/g` -/
def logRest (cs : List Char) : Option (List Char) :=
  (seqSteps [expClass jsDigit 4, expLit '-', expClass jsDigit 2, expLit '-',
             expClass jsDigit 2, expCls jsWs, expClass jsDigit 2, expLit ':',
             expClass jsDigit 2, expLit ':', expClass jsDigit 2] cs).map fun r =>
    expOpt (seqSteps [expLit '.', expClass jsDigit 3]) r

/-- One backtracking branch of `SYSLOG_PATTERN` with the `\d{1,2}` width
fixed to `a`. -/
def syslogRestWith (a : Nat) (cs : List Char) : Option (List Char) :=
  seqSteps [expClass jsAlpha 3, expMunch1 jsWs, expClass jsDigit a, expCls jsWs,
            expClass jsDigit 2, expLit ':', expClass jsDigit 2, expLit ':',
            expClass jsDigit 2] cs

/-- `SYSLOG_PATTERN = /([A-Za-z]{3}\s+\d{1,2}\s\d{2}:\d{2}:\d{2})/g`
(the `\s+` run is maximal because a digit can never extend it). -/
def syslogRest (cs : List Char) : Option (List Char) :=
  (syslogRestWith 2 cs).orElse fun _ => syslogRestWith 1 cs

/-- `APACHE_PATTERN = /(\[\d{2}\/[A-Za-z]{3}\/\d{4}:\d{2}:\d{2}:\d{2}\s[+-]\d{4}\])/g` -/
def apacheRest (cs : List Char) : Option (List Char) :=
  seqSteps [expLit '[', expClass jsDigit 2, expLit '/', expClass jsAlpha 3,
            expLit '/', expClass jsDigit 4, expLit ':', expClass jsDigit 2,
            expLit ':', expClass jsDigit 2, expLit ':', expClass jsDigit 2,
            expCls jsWs, expCls signCls, expClass jsDigit 4, expLit ']'] cs

/-- `extractLogFormat` (`formats/log.ts`): every `LOG_PATTERN` match is
emitted with format `iso`. -/
def extractLogFormat (dp : String → JsNum) (line : String) (lineIndex : Nat) :
    List DateValue :=
  (scanWith logRest line.data 0).map fun m =>
    { value := m.2, format := .iso, timestamp := some (dp m.2),
      position := some ⟨lineIndex + 1, m.1 + 1⟩, context := some (jsTrim line) }

/-- `extractSyslogFormat`: append the current year, parse, and skip the match
when the result is `NaN`; emitted with format `custom`. -/
def extractSyslogFormat (dp : String → JsNum) (currentYear : Int)
    (line : String) (lineIndex : Nat) : List DateValue :=
  (scanWith syslogRest line.data 0).filterMap fun m =>
    let fullDate := m.2 ++ " " ++ toString currentYear
    let parsed := dp fullDate
    if parsed.isNaN then none
    else some
      { value := m.2, format := .custom, timestamp := some parsed,
        position := some ⟨lineIndex + 1, m.1 + 1⟩, context := some (jsTrim line) }

/-- `match[0].replace(/[[\]]/g, '')`: remove every square bracket. -/
def stripBrackets (s : String) : String :=
  (s.data.filter fun c => !(c = '[' || c = ']')).asString

/-- `extractApacheFormat`: parse the bracket-stripped text, keep the bracketed
text as the value; emitted with format `custom`. -/
def extractApacheFormat (dp : String → JsNum) (line : String) (lineIndex : Nat) :
    List DateValue :=
  (scanWith apacheRest line.data 0).map fun m =>
    { value := m.2, format := .custom, timestamp := some (dp (stripBrackets m.2)),
      position := some ⟨lineIndex + 1, m.1 + 1⟩, context := some (jsTrim line) }

/-- `extractLogSpecificDates`: per non-empty line, the log, syslog and Apache
matchers in source order. -/
def extractLogSpecificDates (dp : String → JsNum) (currentYear : Int)
    (content : String) : List DateValue :=
  ((jsSplitLines content).enum.map fun p =>
    if p.2 = "" then []
    else
      extractLogFormat dp p.2 p.1 ++
      extractSyslogFormat dp currentYear p.2 p.1 ++
      extractApacheFormat dp p.2 p.1).flatten

/-- `extractFromLog`: generic line scan results followed by the log-specific
matches (no cross-scanner dedup). -/
def extractFromLog (dp : String → JsNum) (currentYear : Int) (content : String) :
    List DateValue :=
  extractDatesFromLines dp content ++ extractLogSpecificDates dp currentYear content

/-! ## Capture matchers for the HTML and JavaScript idiom patterns

These patterns have one capture group; a matcher returns the rest of the
input after the whole match together with the captured text. -/

/-- The `['"\x60]` class: single quote (39), double quote (34), backtick (96). -/
def quoteCls (c : Char) : Bool := c.toNat = 39 || c.toNat = 34 || c.toNat = 96

/-- `[^'"\x60]`. -/
def notQuote (c : Char) : Bool := !quoteCls c

/-- `[^>]`. -/
def notGt (c : Char) : Bool := c ≠ '>'

/-- Match a literal string case-sensitively. -/
def expStr : List Char → List Char → Option (List Char)
  | [], cs => some cs
  | _ :: _, [] => none
  | l :: ls, c :: cs => if c = l then expStr ls cs else none

/-- `([^'"\x60]+)['"\x60]`: the greedy capture run followed by a closing quote.
The run is maximal, so no backtracking is needed: any shorter run would also
end at a non-quote character. -/
def capToQuote (cs : List Char) : Option (List Char × String) :=
  let cap := cs.takeWhile notQuote
  if cap.isEmpty then none
  else (expCls quoteCls (cs.dropWhile notQuote)).map fun r => (r, cap.asString)

/-- `\s*=\s*['"\x60]` followed by the capture-and-close of `capToQuote`. -/
def eqQuotedCap (cs : List Char) : Option (List Char × String) := do
  let r ← expLit '=' (expMunch jsWs cs)
  let r ← expCls quoteCls (expMunch jsWs r)
  capToQuote r

/-- Greedy `[^>]*` before a continuation: try the continuation after the
longest run of non-`>` characters first, backtracking one character at a
time, exactly as the JavaScript engine does. `k` is the run length still
allowed. -/
def gtSplit (m : List Char → Option (List Char × String)) :
    Nat → List Char → Option (List Char × String)
  | 0, cs => m cs
  | k + 1, cs =>
    match m (cs.drop (k + 1)) with
    | some x => some x
    | none => gtSplit m k cs

/-- Run `m` after a greedy `[^>]*`. -/
def afterGtRun (m : List Char → Option (List Char × String)) (cs : List Char) :
    Option (List Char × String) :=
  gtSplit m (cs.takeWhile notGt).length cs

/-- `DATETIME_ATTR_PATTERN = /datetime\s*=\s*['"\x60]([^'"\x60]+)['"\x60]/gi` -/
def datetimeAttrRest (cs : List Char) : Option (List Char × String) := do
  let r ← expStrCI "datetime".data cs
  eqQuotedCap r

/-- `TIME_TAG_PATTERN = /<time[^>]*datetime\s*=\s*['"\x60]([^'"\x60]+)['"\x60][^>]*>/gi` -/
def timeTagRest (cs : List Char) : Option (List Char × String) := do
  let r ← expStrCI "<time".data cs
  afterGtRun (fun r' => do
    let r' ← expStrCI "datetime".data r'
    let (r', cap) ← eqQuotedCap r'
    let r' ← expLit '>' (expMunch notGt r')
    pure (r', cap)) r

/-- `(?:property|name)`: the alternatives share no prefix, so the committed
left-to-right choice is exact. -/
def propOrName (cs : List Char) : Option (List Char) :=
  (expStrCI "property".data cs).orElse fun _ => expStrCI "name".data cs

/-- `(?:date|published|modified|created)`. -/
def metaKeyword (cs : List Char) : Option (List Char) :=
  (expStrCI "date".data cs).orElse fun _ =>
  (expStrCI "published".data cs).orElse fun _ =>
  (expStrCI "modified".data cs).orElse fun _ =>
  expStrCI "created".data cs

/-- `META_DATE_PATTERN =
`/<meta[^>]*(?:property|name)\s*=\s*['"\x60](?:date|published|modified|created)['"\x60][^>]*content\s*=\s*['"\x60]([^'"\x60]+)['"\x60][^>]*>/gi` -/
def metaDateRest (cs : List Char) : Option (List Char × String) := do
  let r ← expStrCI "<meta".data cs
  afterGtRun (fun r' => do
    let r' ← propOrName r'
    let r' ← expLit '=' (expMunch jsWs r')
    let r' ← expCls quoteCls (expMunch jsWs r')
    let r' ← metaKeyword r'
    let r' ← expCls quoteCls r'
    afterGtRun (fun r'' => do
      let r'' ← expStrCI "content".data r''
      let (r'', cap) ← eqQuotedCap r''
      let r'' ← expLit '>' (expMunch notGt r'')
      pure (r'', cap)) r') r

/-- `JSON_LD_PATTERN = /"datePublished"\s*:\s*['"\x60]([^'"\x60]+)['"\x60]/gi` -/
def jsonLdRest (cs : List Char) : Option (List Char × String) := do
  let r ← expStrCI "\"datePublished\"".data cs
  let r ← expLit ':' (expMunch jsWs r)
  let r ← expCls quoteCls (expMunch jsWs r)
  capToQuote r

/-- `JSON_LD_MODIFIED_PATTERN = /"dateModified"\s*:\s*['"\x60]([^'"\x60]+)['"\x60]/gi` -/
def jsonLdModifiedRest (cs : List Char) : Option (List Char × String) := do
  let r ← expStrCI "\"dateModified\"".data cs
  let r ← expLit ':' (expMunch jsWs r)
  let r ← expCls quoteCls (expMunch jsWs r)
  capToQuote r

/-- `NEW_DATE_PATTERN = /new\s+Date\s*\(\s*['"\x60]([^'"\x60]+)['"\x60]\s*\)/g` -/
def newDateRest (cs : List Char) : Option (List Char × String) := do
  let r ← expStr "new".data cs
  let r ← expMunch1 jsWs r
  let r ← expStr "Date".data r
  let r ← expLit '(' (expMunch jsWs r)
  let r ← expCls quoteCls (expMunch jsWs r)
  let (r, cap) ← capToQuote r
  let r ← expLit ')' (expMunch jsWs r)
  pure (r, cap)

/-- `DATE_PARSE_PATTERN = /Date\.parse\s*\(\s*['"\x60]([^'"\x60]+)['"\x60]\s*\)/g` -/
def dateParseRest (cs : List Char) : Option (List Char × String) := do
  let r ← expStr "Date.parse".data cs
  let r ← expLit '(' (expMunch jsWs r)
  let r ← expCls quoteCls (expMunch jsWs r)
  let (r, cap) ← capToQuote r
  let r ← expLit ')' (expMunch jsWs r)
  pure (r, cap)

/-- `MOMENT_PATTERN = /moment\s*\(\s*['"\x60]([^'"\x60]+)['"\x60]\s*\)/g` -/
def momentRest (cs : List Char) : Option (List Char × String) := do
  let r ← expStr "moment".data cs
  let r ← expLit '(' (expMunch jsWs r)
  let r ← expCls quoteCls (expMunch jsWs r)
  let (r, cap) ← capToQuote r
  let r ← expLit ')' (expMunch jsWs r)
  pure (r, cap)

/-- `DAYJS_PATTERN = /dayjs\s*\(\s*['"\x60]([^'"\x60]+)['"\x60]\s*\)/g` -/
def dayjsRest (cs : List Char) : Option (List Char × String) := do
  let r ← expStr "dayjs".data cs
  let r ← expLit '(' (expMunch jsWs r)
  let r ← expCls quoteCls (expMunch jsWs r)
  let (r, cap) ← capToQuote r
  let r ← expLit ')' (expMunch jsWs r)
  pure (r, cap)

/-- `LUXON_PATTERN = /DateTime\.fromISO\s*\(\s*['"\x60]([^'"\x60]+)['"\x60]\s*\)/g` -/
def luxonRest (cs : List Char) : Option (List Char × String) := do
  let r ← expStr "DateTime.fromISO".data cs
  let r ← expLit '(' (expMunch jsWs r)
  let r ← expCls quoteCls (expMunch jsWs r)
  let (r, cap) ← capToQuote r
  let r ← expLit ')' (expMunch jsWs r)
  pure (r, cap)

/-- The `exec` loop for a pattern with one capture group: records
`(match.index, match[0], match[1])`. -/
def scanWithCapF (tryRest : List Char → Option (List Char × String)) :
    Nat → List Char → Nat → List (Nat × String × String)
  | 0, _, _ => []
  | _ + 1, [], _ => []
  | fuel + 1, c :: rest, pos =>
    match tryRest (c :: rest) with
    | some (r, cap) =>
      if r.length < (c :: rest).length then
        let len := (c :: rest).length - r.length
        (pos, ((c :: rest).take len).asString, cap) ::
          scanWithCapF tryRest fuel r (pos + len)
      else
        scanWithCapF tryRest fuel rest (pos + 1)
    | none => scanWithCapF tryRest fuel rest (pos + 1)

/-- The capture scan loop with enough fuel (`cs.length` steps suffice). -/
def scanWithCap (tryRest : List Char → Option (List Char × String))
    (cs : List Char) (pos : Nat) : List (Nat × String × String) :=
  scanWithCapF tryRest cs.length cs pos

/-- The shared body of every custom-format idiom matcher (html.ts and
javascript.ts): take `match[1]`, skip falsy (empty) captures, parse it and
skip `NaN` results, else emit a `custom` `DateValue` at `match.index`. -/
def customFromScan (dp : String → JsNum) (line : String) (lineIndex : Nat)
    (ms : List (Nat × String × String)) : List DateValue :=
  ms.filterMap fun m =>
    let dateString := m.2.2
    if dateString = "" then none
    else
      let parsed := dp dateString
      if parsed.isNaN then none
      else some
        { value := dateString, format := .custom, timestamp := some parsed,
          position := some ⟨lineIndex + 1, m.1 + 1⟩, context := some (jsTrim line) }

/-! ## The HTML scanner (`formats/html.ts`) -/

/-- One line of `extractFromHtml`: the six generic patterns (inline copies in
the source), then the five HTML-specific matchers, in source order. -/
def extractHtmlLine (dp : String → JsNum) (line : String) (lineIndex : Nat) :
    List DateValue :=
  ((scanWith isoRest line.data 0).map fun m =>
    { value := m.2, format := .iso, timestamp := some (dp m.2),
      position := some ⟨lineIndex + 1, m.1 + 1⟩, context := some (jsTrim line) }) ++
  ((scanWith rfc2822Rest line.data 0).map fun m =>
    { value := m.2, format := .rfc2822, timestamp := some (dp m.2),
      position := some ⟨lineIndex + 1, m.1 + 1⟩, context := some (jsTrim line) }) ++
  extractUnixTimestamp line lineIndex ++
  ((scanWith utcRest line.data 0).map fun m =>
    { value := m.2, format := .utc, timestamp := some (dp m.2),
      position := some ⟨lineIndex + 1, m.1 + 1⟩, context := some (jsTrim line) }) ++
  ((scanWith localRest line.data 0).map fun m =>
    { value := m.2, format := .local, timestamp := some (dp m.2),
      position := some ⟨lineIndex + 1, m.1 + 1⟩, context := some (jsTrim line) }) ++
  ((scanWith simpleRest line.data 0).map fun m =>
    { value := m.2, format := .simple, timestamp := some (dp m.2),
      position := some ⟨lineIndex + 1, m.1 + 1⟩, context := some (jsTrim line) }) ++
  customFromScan dp line lineIndex (scanWithCap datetimeAttrRest line.data 0) ++
  customFromScan dp line lineIndex (scanWithCap timeTagRest line.data 0) ++
  customFromScan dp line lineIndex (scanWithCap metaDateRest line.data 0) ++
  customFromScan dp line lineIndex (scanWithCap jsonLdRest line.data 0) ++
  customFromScan dp line lineIndex (scanWithCap jsonLdModifiedRest line.data 0)

/-- `extractFromHtml`: `lines.forEach` over every line (no empty-line skip,
no overlap suppression, no dedup). -/
def extractFromHtml (dp : String → JsNum) (content : String) : List DateValue :=
  ((jsSplitLines content).enum.map fun p => extractHtmlLine dp p.2 p.1).flatten

/-! ## The JavaScript scanner (`formats/javascript.ts`) -/

/-- One line of `extractFromJavaScript`: the six generic patterns, then the
five code-idiom matchers, in source order. -/
def extractJavaScriptLine (dp : String → JsNum) (line : String)
    (lineIndex : Nat) : List DateValue :=
  ((scanWith isoRest line.data 0).map fun m =>
    { value := m.2, format := .iso, timestamp := some (dp m.2),
      position := some ⟨lineIndex + 1, m.1 + 1⟩, context := some (jsTrim line) }) ++
  ((scanWith rfc2822Rest line.data 0).map fun m =>
    { value := m.2, format := .rfc2822, timestamp := some (dp m.2),
      position := some ⟨lineIndex + 1, m.1 + 1⟩, context := some (jsTrim line) }) ++
  extractUnixTimestamp line lineIndex ++
  ((scanWith utcRest line.data 0).map fun m =>
    { value := m.2, format := .utc, timestamp := some (dp m.2),
      position := some ⟨lineIndex + 1, m.1 + 1⟩, context := some (jsTrim line) }) ++
  ((scanWith localRest line.data 0).map fun m =>
    { value := m.2, format := .local, timestamp := some (dp m.2),
      position := some ⟨lineIndex + 1, m.1 + 1⟩, context := some (jsTrim line) }) ++
  ((scanWith simpleRest line.data 0).map fun m =>
    { value := m.2, format := .simple, timestamp := some (dp m.2),
      position := some ⟨lineIndex + 1, m.1 + 1⟩, context := some (jsTrim line) }) ++
  customFromScan dp line lineIndex (scanWithCap newDateRest line.data 0) ++
  customFromScan dp line lineIndex (scanWithCap dateParseRest line.data 0) ++
  customFromScan dp line lineIndex (scanWithCap momentRest line.data 0) ++
  customFromScan dp line lineIndex (scanWithCap dayjsRest line.data 0) ++
  customFromScan dp line lineIndex (scanWithCap luxonRest line.data 0)

/-- `extractFromJavaScript`. -/
def extractFromJavaScript (dp : String → JsNum) (content : String) :
    List DateValue :=
  ((jsSplitLines content).enum.map fun p =>
    extractJavaScriptLine dp p.2 p.1).flatten

/-! ## The format router (`extract.ts`) -/

/-- `determineFileType`. -/
def determineFileType (languageId : String) : FileType :=
  if languageId = "json" then .json
  else if languageId = "yaml" then .yaml
  else if languageId = "yml" then .yaml
  else if languageId = "csv" then .csv
  else if languageId = "xml" then .xml
  else if languageId = "log" then .log
  else if languageId = "plaintext" then .log
  else if languageId = "javascript" then .javascript
  else if languageId = "typescript" then .javascript
  else if languageId = "html" then .html
  else .unknown

/-- `extractByFileType`: dispatch to the per-format scanner.
`currentYear` feeds the syslog matcher of the log scanner. -/
def extractByFileType (dp : String → JsNum) (currentYear : Int)
    (content : String) : FileType → List DateValue
  | .json => extractFromJson dp content
  | .yaml => extractFromYaml dp content
  | .yml => extractFromYaml dp content
  | .csv => extractFromCsv dp content
  | .xml => extractFromXml dp content
  | .log => extractFromLog dp currentYear content
  | .javascript => extractFromJavaScript dp content
  | .html => extractFromHtml dp content
  | .unknown => []

/-- A thrown JavaScript value: an `Error` instance with a message, or any
other value. -/
inductive JsError where
  | error (message : String) : JsError
  | value : JsError
  deriving DecidableEq, Repr

/-- `error instanceof Error ? error.message : 'Unknown parsing error'`. -/
def JsError.parseMessage : JsError → String
  | .error m => m
  | .value => "Unknown parsing error"

/-- `createEmptyResult`. -/
def createEmptyResult : ExtractionResult :=
  { success := true, dates := [], errors := [] }

/-- `createSuccessResult`. -/
def createSuccessResult (dates : List DateValue) : ExtractionResult :=
  { success := true, dates := dates, errors := [] }

/-- `createErrorResult`: one `parsing`/`warning`/`skip` error stamped with
`Date.now()` (the `now` parameter). -/
def createErrorResult (now : Int) (error : JsError) : ExtractionResult :=
  { success := false, dates := [],
    errors := [{ category := "parsing", severity := "warning",
                 message := error.parseMessage, recoverable := true,
                 recoveryAction := "skip", timestamp := now }] }

/-- `extractDates`, parameterised over the scanning step so that the
`try/catch` can be modelled: a scanner that throws is an `Except.error`. -/
def extractDatesWith (scan : String → FileType → Except JsError (List DateValue))
    (now : Int) (content languageId : String) : ExtractionResult :=
  let fileType := determineFileType languageId
  if fileType = .unknown then createEmptyResult
  else
    match scan content fileType with
    | .ok dates => createSuccessResult dates
    | .error e => createErrorResult now e

/-- `extractDates` with the actual (total, non-throwing) scanners. -/
def extractDates (dp : String → JsNum) (currentYear : Int) (now : Int)
    (content languageId : String) : ExtractionResult :=
  extractDatesWith (fun c ft => .ok (extractByFileType dp currentYear c ft))
    now content languageId

/-! ## The analysis engine (`src/__mocks__/vscode.ts`, analysis part)

Locale-dependent `Date` accessors are abstracted as a `JsDateEnv`; each is a
pure function of the epoch-millisecond time value in the host's locale.
JavaScript float arithmetic on the derived statistics is modelled exactly on
`ℚ` (every input is an integer); `new Date(x)` truncates its argument toward
zero (`ToIntegerOrInfinity`) and clips to the representable range. -/

/-- The locale-dependent `Date` accessors used by the analysis functions. -/
structure JsDateEnv where
  tzOffset : Int → Int
  fullYear : Int → Int
  month : Int → Int
  day : Int → Int
  hoursOf : Int → Int

/-- Truncation toward zero (JavaScript `ToIntegerOrInfinity`). -/
def ratTrunc (q : ℚ) : Int := if 0 ≤ q then ⌊q⌋ else ⌈q⌉

/-- The time value of `new Date(q)` for a (possibly fractional) argument. -/
def newJsDateQ (q : ℚ) : JsNum :=
  let t := ratTrunc q
  if t.natAbs ≤ maxDateMs then .int t else .nan

/-- The raw numeric timestamp of an entry (`date.timestamp!`); only applied
to entries that passed the validity filter, where it is `.int v`. -/
def tsInt (d : DateValue) : Int :=
  match d.timestamp with
  | some (.int v) => v
  | _ => 0

/-- `record[k] = (record[k] || 0) + 1` on an insertion-ordered record. -/
def bump {κ : Type} [DecidableEq κ] (m : List (κ × Nat)) (k : κ) :
    List (κ × Nat) :=
  if m.any (fun p => p.1 = k) then
    m.map fun p => if p.1 = k then (p.1, p.2 + 1) else p
  else m ++ [(k, 1)]

/-- Build a histogram from a list of keys. -/
def histo {κ : Type} [DecidableEq κ] (ks : List κ) : List (κ × Nat) :=
  ks.foldl bump []

/-- `DateStatistics` (`vscode.ts`): `Date`-valued fields carry their time
value; `average` and `median` can be invalid dates, hence `JsNum`. -/
structure DateStatistics where
  total : Nat
  unique : Nat
  duplicates : Int
  earliest : Option Int
  latest : Option Int
  range : Option Int
  average : Option JsNum
  median : Option JsNum
  formats : List (String × Nat)
  timezones : List (String × Nat)
  years : List (Int × Nat)
  months : List (Int × Nat)
  daysOfWeek : List (Int × Nat)
  hours : List (Int × Nat)
  deriving DecidableEq, Repr

/-- The all-null `DateStatistics` record returned for empty input. -/
def emptyStatistics : DateStatistics :=
  { total := 0, unique := 0, duplicates := 0, earliest := none, latest := none,
    range := none, average := none, median := none, formats := [],
    timezones := [], years := [], months := [], daysOfWeek := [], hours := [] }

/-- The valid-date filter of `calculateDateStatistics`:
`dates.map(d => d.timestamp ? new Date(d.timestamp) : null)`
`.filter(d => d !== null && !Number.isNaN(d.getTime()))`,
keeping each surviving `Date`'s time value. -/
def statsValidDates (dates : List DateValue) : List Int :=
  (dates.map fun d =>
      if jsTruthy d.timestamp then some (newJsDateOpt d.timestamp) else none
    ).filterMap fun o =>
      match o with
      | some (.int v) => some v
      | _ => none

/-- `calculateDateStatistics`. -/
def calculateDateStatistics (env : JsDateEnv) (dates : List DateValue) :
    DateStatistics :=
  if dates.length = 0 then emptyStatistics
  else
    let validDates := statsValidDates dates
    if validDates.length = 0 then
      { emptyStatistics with
        total := dates.length, duplicates := (dates.length : Int) }
    else
      let sortedDates := List.insertionSort (· ≤ ·) validDates
      let total := dates.length
      let unique := validDates.dedup.length
      let earliest := sortedDates.headD 0
      let latest := sortedDates.getLastD 0
      let averageTimestamp : ℚ :=
        ((validDates.foldl (· + ·) 0 : Int) : ℚ) / (validDates.length : ℚ)
      let medianIndex := sortedDates.length / 2
      let median : JsNum :=
        if sortedDates.length % 2 = 0 then
          newJsDateQ ((((sortedDates.getD (medianIndex - 1) 0 +
            sortedDates.getD medianIndex 0 : Int)) : ℚ) / 2)
        else .int (sortedDates.getD medianIndex 0)
      { total := total, unique := unique,
        duplicates := (total : Int) - (unique : Int),
        earliest := some earliest, latest := some latest,
        range := some (latest - earliest),
        average := some (newJsDateQ averageTimestamp),
        median := some median,
        formats := histo (dates.map fun d => d.format.tag),
        timezones := histo (validDates.map fun t => toString (env.tzOffset t)),
        years := histo (validDates.map env.fullYear),
        months := histo (validDates.map env.month),
        daysOfWeek := histo (validDates.map env.day),
        hours := histo (validDates.map env.hoursOf) }

/-- Anomaly kinds (`DateAnomaly.type`). -/
inductive AnomalyType where
  | future | invalid | outlier | duplicate | formatInconsistent
  deriving DecidableEq, Repr

/-- `DateAnomaly`. -/
structure DateAnomaly where
  type : AnomalyType
  date : DateValue
  severity : String
  description : String
  suggestion : Option String
  deriving DecidableEq, Repr

/-- `Date` (`valueOf`) compared with `>` against an instant: `NaN` compares
false. -/
def jsGtInt : JsNum → Int → Bool
  | .nan, _ => false
  | .int v, n => v > n

/-- The valid-date filter of `detectDateAnomalies`:
`dates.filter(d => d.timestamp && !Number.isNaN(new Date(d.timestamp).getTime()))`. -/
def anomaliesValidDates (dates : List DateValue) : List DateValue :=
  dates.filter fun d => jsTruthy d.timestamp && !(newJsDateOpt d.timestamp).isNaN

/-- Pass 1 of `detectDateAnomalies`: future dates (medium severity). -/
def futurePass (now : Int) (dates : List DateValue) : List DateAnomaly :=
  dates.filterMap fun date =>
    if jsTruthy date.timestamp then
      if jsGtInt (newJsDateOpt date.timestamp) now then
        some { type := .future, date := date, severity := "medium",
               description := "Future date detected: " ++ date.value,
               suggestion :=
                 some "Verify if this is expected or a data entry error" }
      else none
    else none

/-- Pass 2 of `detectDateAnomalies`: invalid dates (high severity); the
truthiness guard runs before the `NaN` test. -/
def invalidPass (dates : List DateValue) : List DateAnomaly :=
  dates.filterMap fun date =>
    if jsTruthy date.timestamp && (newJsDateOpt date.timestamp).isNaN then
      some { type := .invalid, date := date, severity := "high",
             description := "Invalid date format: " ++ date.value,
             suggestion :=
               some "Check date format and ensure it matches expected pattern" }
    else none

/-- Pass 3 of `detectDateAnomalies`: IQR outliers (low severity), only with
more than 4 valid dates. -/
def outlierPass (dates : List DateValue) : List DateAnomaly :=
  let validDates := anomaliesValidDates dates
  if validDates.length > 4 then
    let timestamps := List.insertionSort (· ≤ ·) (validDates.map tsInt)
    -- Math.floor(n * 0.25) and Math.floor(n * 0.75): 0.25 and 0.75 are
    -- exact binary floats, so these are exactly n*25/100 and n*75/100.
    let q1Index := timestamps.length * 25 / 100
    let q3Index := timestamps.length * 75 / 100
    let q1 := timestamps.getD q1Index 0
    let q3 := timestamps.getD q3Index 0
    let iqr := q3 - q1
    let lowerBound : ℚ := (q1 : ℚ) - 3 / 2 * (iqr : ℚ)
    let upperBound : ℚ := (q3 : ℚ) + 3 / 2 * (iqr : ℚ)
    validDates.filterMap fun date =>
      if ((tsInt date : ℚ) < lowerBound || (tsInt date : ℚ) > upperBound) then
        some { type := .outlier, date := date, severity := "low",
               description := "Date outlier detected: " ++ date.value,
               suggestion :=
                 some "Review if this date is expected or represents an anomaly" }
      else none
  else []

/-- `formatGroups`: a `Map<string, DateValue[]>` filled in input order. -/
def formatGroups (dates : List DateValue) : List (DateFormat × List DateValue) :=
  dates.foldl
    (fun gs date =>
      if gs.any (fun g => g.1 = date.format) then
        gs.map fun g => if g.1 = date.format then (g.1, g.2 ++ [date]) else g
      else gs ++ [(date.format, [date])])
    []

/-- Pass 4 of `detectDateAnomalies`: format inconsistency (low severity)
relative to the dominant format (stable descending sort by group size, so
ties go to the first-encountered format). -/
def formatPass (dates : List DateValue) : List DateAnomaly :=
  let groups := formatGroups dates
  if groups.length > 1 then
    match List.insertionSort (fun p q : DateFormat × List DateValue =>
        q.2.length ≤ p.2.length) groups with
    | [] => []
    | dom :: _ =>
      dates.filterMap fun date =>
        if date.format ≠ dom.1 then
          some { type := .formatInconsistent, date := date, severity := "low",
                 description := "Inconsistent date format: " ++ date.value ++
                   " (" ++ date.format.tag ++ ")",
                 suggestion := some ("Consider standardizing to " ++
                   dom.1.tag ++ " format") }
        else none
  else []

/-- `detectDateAnomalies`: the four passes append to one list. -/
def detectDateAnomalies (now : Int) (dates : List DateValue) :
    List DateAnomaly :=
  futurePass now dates ++ invalidPass dates ++ outlierPass dates ++
    formatPass dates

/-- `DatePattern`. -/
structure DatePattern where
  type : String
  description : String
  confidence : ℚ
  examples : List String
  deriving DecidableEq, Repr

/-- The valid-date filter shared by `detectDatePatterns` and `clusterDates`:
`dates.filter(d => d.timestamp && !Number.isNaN(new Date(d.timestamp).getTime()))`
`.map(d => ({...d, date: new Date(d.timestamp!)}))` — each surviving entry
paired with its `Date`'s time value. -/
def patternsValidDates (dates : List DateValue) : List (DateValue × Int) :=
  dates.filterMap fun d =>
    if jsTruthy d.timestamp && !(newJsDateOpt d.timestamp).isNaN then
      some (d, tsInt d)
    else none

/-- `calculateIntervals`: consecutive time differences in input order. -/
def calculateIntervals (ds : List (DateValue × Int)) : List Int :=
  List.zipWith (fun a b => b.2 - a.2) ds ds.tail

/-- `Math.abs(interval - key) / key <= 0.1`; JavaScript division by a zero
key yields `Infinity` or `NaN`, both failing the comparison. -/
def relTolOk (i k : ℚ) : Bool :=
  if k = 0 then false else |i - k| / k ≤ 1 / 10

/-- One step of the grouping loop in `findMostCommonInterval`: push onto the
first key within tolerance, else `Map.set` a fresh singleton group (which
overwrites an exact-key group if one exists). -/
def fmciStep (gs : List (Int × List Int)) (i : Int) : List (Int × List Int) :=
  match gs.find? (fun g => relTolOk (i : ℚ) (g.1 : ℚ)) with
  | some g => gs.map fun g' => if g'.1 = g.1 then (g'.1, g'.2 ++ [i]) else g'
  | none =>
    if gs.any (fun g => g.1 = i) then
      gs.map fun g' => if g'.1 = i then (i, [i]) else g'
    else gs ++ [(i, [i])]

/-- `findMostCommonInterval`: the key of the first group of strictly maximal
size (`maxCount` starts at 0, `>` keeps the first maximum). -/
def findMostCommonInterval (intervals : List Int) : Option Int :=
  let groups := intervals.foldl fmciStep []
  (groups.foldl
    (fun acc g =>
      match acc with
      | none => if g.2.length > 0 then some g else none
      | some b => if g.2.length > b.2.length then some g else acc)
    none).map (·.1)

/-- `calculateConfidence`: fraction of intervals within tolerance of the
target. -/
def calculateConfidence (intervals : List Int) (target : Int) : ℚ :=
  ((intervals.filter fun i => relTolOk (i : ℚ) (target : ℚ)).length : ℚ) /
    (intervals.length : ℚ)

/-- `Math.floor(a / b)` for integers (positive `b`). -/
def jsFloorDiv (a b : Int) : Int := Int.fdiv a b

/-- JavaScript `%` (truncated remainder, sign of the dividend). -/
def jsRem (a b : Int) : Int := Int.tmod a b

/-- Pluralise as the source does (`s` exactly when the count exceeds 1). -/
def plural (n : Int) (unit : String) : String :=
  toString n ++ " " ++ unit ++ (if n > 1 then "s" else "")

/-- `formatInterval`. -/
def formatInterval (interval : Int) : String :=
  let days := jsFloorDiv interval 86400000
  let hoursPart := jsFloorDiv (jsRem interval 86400000) 3600000
  let minutes := jsFloorDiv (jsRem interval 3600000) 60000
  if days > 0 then plural days "day"
  else if hoursPart > 0 then plural hoursPart "hour"
  else plural minutes "minute"

/-- `monthNames`. -/
def monthNames : List String :=
  ["January", "February", "March", "April", "May", "June", "July", "August",
   "September", "October", "November", "December"]

/-- Count of dates falling in calendar month `m` (`monthCounts[m]`). -/
def monthCount (env : JsDateEnv) (ds : List (DateValue × Int)) (m : Int) : Nat :=
  (ds.filter fun d => env.month d.2 = m).length

/-- Render a percentage `(maxCount / total) * 100` with one decimal
(`toFixed(1)`, round half up on the exact rational value). -/
def pctString (num den : Nat) : String :=
  let tenths := ((num * 2000 + den) / (2 * den) : Nat)
  toString (tenths / 10) ++ "." ++ toString (tenths % 10)

/-- `detectSeasonalPattern`: the busiest calendar month, reported when it
holds more than 30% of all dates. -/
def detectSeasonalPattern (env : JsDateEnv) (ds : List (DateValue × Int)) :
    Option DatePattern :=
  let counts := (List.range 12).map fun m => monthCount env ds (m : Int)
  let maxCount := counts.foldl max 0
  let maxMonth := counts.indexOf maxCount
  let totalDates := ds.length
  if (maxCount : ℚ) / (totalDates : ℚ) > 3 / 10 then
    some { type := "seasonal",
           description := "Seasonal pattern: " ++ pctString maxCount totalDates ++
             "% of dates in " ++ (monthNames.getD maxMonth ""),
           confidence := (maxCount : ℚ) / (totalDates : ℚ),
           examples :=
             ((ds.filter fun d => env.month d.2 = (maxMonth : Int)).take 3).map
               (·.1.value) }
  else none

/-- `detectTrendPattern`: linear regression of time value against index;
JavaScript divides `|slope|` by a zero mean to `Infinity`/`NaN`, modelled by
the explicit `meanY = 0` case. -/
def detectTrendPattern (ds : List (DateValue × Int)) : Option DatePattern :=
  if ds.length < 3 then none
  else
    let n : ℚ := (ds.length : ℚ)
    let pts := ds.enum.map fun p => ((p.1 : ℚ), (p.2.2 : ℚ))
    let sumX := pts.foldl (fun a p => a + p.1) 0
    let sumY := pts.foldl (fun a p => a + p.2) 0
    let sumXY := pts.foldl (fun a p => a + p.1 * p.2) 0
    let sumXX := pts.foldl (fun a p => a + p.1 * p.1) 0
    let slope := (n * sumXY - sumX * sumY) / (n * sumXX - sumX * sumX)
    let meanY := sumY / n
    let trendWord := if slope > 0 then "increasing" else "decreasing"
    let descr := trendWord ++ " trend detected in date sequence"
    let examples := (ds.take 3).map (·.1.value)
    if meanY = 0 then
      if slope = 0 then none
      else some { type := "trend", description := descr, confidence := 1,
                  examples := examples }
    else
      let confidence := |slope| / meanY
      if confidence > 1 / 10 then
        some { type := "trend", description := descr,
               confidence := min confidence 1, examples := examples }
      else none

/-- `detectDatePatterns`. -/
def detectDatePatterns (env : JsDateEnv) (dates : List DateValue) :
    List DatePattern :=
  let validDates := patternsValidDates dates
  if validDates.length < 3 then []
  else
    let intervals := calculateIntervals validDates
    let freq : List DatePattern :=
      if intervals.length > 0 then
        match findMostCommonInterval intervals with
        | some mc =>
          -- `if (mostCommonInterval)` is a truthiness test: a zero interval
          -- is falsy and reports no pattern.
          if mc = 0 then []
          else
            [{ type := "frequency",
               description := "Regular interval pattern: " ++ formatInterval mc,
               confidence := calculateConfidence intervals mc,
               examples := (validDates.take 3).map (·.1.value) }]
        | none => []
      else []
    freq ++ (detectSeasonalPattern env validDates).toList ++
      (detectTrendPattern validDates).toList

/-- `DateCluster`: members keep their paired time value (the `{...d, date}`
spread of the source); `center` can be an invalid date. -/
structure DateCluster where
  center : JsNum
  dates : List (DateValue × Int)
  density : ℚ
  description : String
  deriving DecidableEq, Repr

/-- The fixed 24-hour clustering window, in milliseconds. -/
def clusterThreshold : Int := 86400000

/-- The greedy clustering loop: the source iterates indices skipping a
`processed` set; collecting the in-window companions of the first
unprocessed date and recursing on the rest is the same computation.
`toIso` abstracts `Date.prototype.toISOString` (a fixed, pure calendar
rendering of the time value, used only in the description text). -/
def clusterStepF (toIso : Int → String) :
    Nat → List (DateValue × Int) → List DateCluster
  | 0, _ => []
  | _ + 1, [] => []
  | fuel + 1, d :: rest =>
    let near := rest.filter fun o => (o.2 - d.2).natAbs ≤ clusterThreshold.toNat
    let far := rest.filter fun o => !((o.2 - d.2).natAbs ≤ clusterThreshold.toNat)
    let members := d :: near
    let centerTimestamp : ℚ :=
      ((members.foldl (fun a m => a + m.2) 0 : Int) : ℚ) / (members.length : ℚ)
    let center := newJsDateQ centerTimestamp
    let density : ℚ := (members.length : ℚ) / 24
    { center := center, dates := members, density := density,
      description := toString members.length ++ " dates clustered around " ++
        toIso (ratTrunc centerTimestamp) } :: clusterStepF toIso fuel far

/-- The clustering loop with enough fuel: the unprocessed list strictly
shrinks each step, so its length suffices. -/
def clusterStep (toIso : Int → String) (ds : List (DateValue × Int)) :
    List DateCluster :=
  clusterStepF toIso ds.length ds

/-- `clusterDates`. -/
def clusterDates (toIso : Int → String) (dates : List DateValue) :
    List DateCluster :=
  clusterStep toIso (patternsValidDates dates)

/-- `DateGap`. -/
structure DateGap where
  start : Int
  gapEnd : Int
  duration : Int
  description : String
  deriving DecidableEq, Repr

/-- `formatDuration`. -/
def formatDuration (milliseconds : Int) : String :=
  let days := jsFloorDiv milliseconds 86400000
  let hoursPart := jsFloorDiv (jsRem milliseconds 86400000) 3600000
  if days > 0 then plural days "day" else plural hoursPart "hour"

/-- The valid-date list of `detectDateGaps`: parseable timestamps as `Date`
time values, sorted chronologically. -/
def gapsValidDates (dates : List DateValue) : List Int :=
  List.insertionSort (· ≤ ·)
    ((dates.filter fun d =>
        jsTruthy d.timestamp && !(newJsDateOpt d.timestamp).isNaN).map tsInt)

/-- The fixed 7-day gap threshold, in milliseconds. -/
def gapThreshold : Int := 604800000

/-- `detectDateGaps`: consecutive sorted pairs more than 7 days apart. -/
def detectDateGaps (toIso : Int → String) (dates : List DateValue) :
    List DateGap :=
  let validDates := gapsValidDates dates
  if validDates.length < 2 then []
  else
    (List.zip validDates validDates.tail).filterMap fun p =>
      let duration := p.2 - p.1
      if duration > gapThreshold then
        some { start := p.1, gapEnd := p.2, duration := duration,
               description := "Gap of " ++ formatDuration duration ++
                 " between " ++ toIso p.1 ++ " and " ++ toIso p.2 }
      else none

/-- A fixed stand-in for the host's `Date.parse` used in closed test inputs
(everything the concrete examples check is independent of parsing). -/
def dpNan : String → JsNum := fun _ => .nan

/-! ## Helper lemmas about the deduplicator -/

/-- Invariants of the association list built by `deduplicateByValueAndLine`:
keys are distinct and every stored value keys to its map key. -/
def KeysOk (m : List (String × DateValue)) : Prop :=
  (m.map Prod.fst).Nodup ∧ ∀ p ∈ m, dedupKey p.2 = p.1

theorem keysOk_nil : KeysOk [] := by constructor <;> simp

theorem mapSet_of_absent {m : List (String × DateValue)} {k v}
    (h : (m.any fun p => p.1 = k) = false) : mapSet m k v = m ++ [(k, v)] := by
  simp only [mapSet, h]
  simp

theorem mapSet_of_present {m : List (String × DateValue)} {k v}
    (h : (m.any fun p => p.1 = k) = true) :
    mapSet m k v = m.map fun p => if p.1 = k then (k, v) else p := by
  simp only [mapSet, h]
  simp

/-- `mapSet` keeps the key list, only appending `k` when it was absent. -/
theorem mapSet_fst {m : List (String × DateValue)} {k v} :
    (mapSet m k v).map Prod.fst =
      if (m.any fun p => p.1 = k) then m.map Prod.fst
      else m.map Prod.fst ++ [k] := by
  by_cases h : (m.any fun p => p.1 = k) = true
  · rw [mapSet_of_present h, if_pos h, List.map_map]
    apply List.map_congr_left
    intro p _
    by_cases hp : p.1 = k <;> simp [hp]
  · rw [mapSet_of_absent (Bool.eq_false_iff.mpr h), if_neg h]
    simp

/-- Every entry of `mapSet m k v` is an old entry or the new pair. -/
theorem mem_mapSet {m : List (String × DateValue)} {k v p}
    (hp : p ∈ mapSet m k v) : p ∈ m ∨ p = (k, v) := by
  by_cases h : (m.any fun p => p.1 = k) = true
  · rw [mapSet_of_present h] at hp
    obtain ⟨q, hq, rfl⟩ := List.mem_map.mp hp
    by_cases hqk : q.1 = k
    · right; simp [hqk]
    · left; simpa [hqk] using hq
  · rw [mapSet_of_absent (Bool.eq_false_iff.mpr h)] at hp
    rcases List.mem_append.mp hp with h' | h'
    · exact Or.inl h'
    · right; simpa using h'

theorem keysOk_mapSet {m : List (String × DateValue)} {k v}
    (hm : KeysOk m) (hv : dedupKey v = k) : KeysOk (mapSet m k v) := by
  obtain ⟨h1, h2⟩ := hm
  constructor
  · rw [mapSet_fst]
    by_cases h : (m.any fun p => p.1 = k) = true
    · rw [if_pos h]; exact h1
    · rw [if_neg h]
      rw [List.nodup_append]
      refine ⟨h1, List.nodup_singleton k, ?_⟩
      intro x hx hk
      rcases List.mem_singleton.mp hk with rfl
      obtain ⟨q, hq, hqk⟩ := List.mem_map.mp hx
      exact h (List.any_eq_true.mpr ⟨q, hq, by simp [hqk]⟩)
  · intro p hp
    rcases mem_mapSet hp with h' | h'
    · exact h2 p h'
    · rw [h']; exact hv

/-- The dedup fold preserves the invariants. -/
theorem keysOk_foldl (ds : List DateValue) :
    ∀ m, KeysOk m →
      KeysOk (ds.foldl (fun acc d => mapSet acc (dedupKey d) d) m) := by
  induction ds with
  | nil => intro m hm; exact hm
  | cons d tl ih =>
    intro m hm
    exact ih _ (keysOk_mapSet hm rfl)

/-- Values produced by the dedup fold come from the accumulator or the input. -/
theorem foldl_values_subset (ds : List DateValue) :
    ∀ m (v : DateValue),
      v ∈ (ds.foldl (fun acc d => mapSet acc (dedupKey d) d) m).map Prod.snd →
      v ∈ m.map Prod.snd ∨ v ∈ ds := by
  induction ds with
  | nil => intro m v hv; exact Or.inl hv
  | cons d tl ih =>
    intro m v hv
    rcases ih _ v hv with h' | h'
    · obtain ⟨q, hq, rfl⟩ := List.mem_map.mp h'
      rcases mem_mapSet hq with h'' | h''
      · exact Or.inl (List.mem_map.mpr ⟨q, h'', rfl⟩)
      · right; rw [h'']; simp
    · right; exact List.mem_cons_of_mem _ h'

/-- Every output of `deduplicateByValueAndLine` is an input. -/
theorem mem_of_mem_deduplicateByValueAndLine {ds : List DateValue} {v : DateValue}
    (hv : v ∈ deduplicateByValueAndLine ds) : v ∈ ds := by
  rcases foldl_values_subset ds [] v hv with h | h
  · simp at h
  · exact h

/-- The output keys of the dedup fold are distinct. -/
theorem dedup_keys_nodup (ds : List DateValue) :
    ((deduplicateByValueAndLine ds).map dedupKey).Nodup := by
  obtain ⟨h1, h2⟩ := keysOk_foldl ds [] keysOk_nil
  have : (deduplicateByValueAndLine ds).map dedupKey =
      (ds.foldl (fun acc d => mapSet acc (dedupKey d) d) []).map Prod.fst := by
    unfold deduplicateByValueAndLine
    rw [List.map_map]
    exact List.map_congr_left fun p hp => h2 p hp
  rw [this]
  exact h1

/-- When every incoming key is fresh, the dedup fold only appends. -/
theorem foldl_mapSet_fresh (ds : List DateValue) :
    ∀ m : List (String × DateValue),
      (m.map Prod.fst ++ ds.map dedupKey).Nodup →
      ds.foldl (fun acc d => mapSet acc (dedupKey d) d) m =
        m ++ ds.map fun d => (dedupKey d, d) := by
  induction ds with
  | nil => intro m _; simp
  | cons d tl ih =>
    intro m hnd
    have hparts := List.nodup_append.mp hnd
    obtain ⟨hm, hdt, hdisj⟩ := hparts
    simp only [List.map_cons] at hdt hdisj
    have hd_tl : dedupKey d ∉ tl.map dedupKey := (List.nodup_cons.mp hdt).1
    have htl : (tl.map dedupKey).Nodup := (List.nodup_cons.mp hdt).2
    have hd_m : dedupKey d ∉ m.map Prod.fst := fun hmem =>
      hdisj hmem (List.mem_cons_self _ _)
    have habs : (m.any fun p => p.1 = dedupKey d) = false := by
      rw [Bool.eq_false_iff]
      intro hany
      obtain ⟨q, hq, hqk⟩ := List.any_eq_true.mp hany
      exact hd_m (List.mem_map.mpr ⟨q, hq, by simpa using hqk⟩)
    simp only [List.foldl_cons]
    rw [mapSet_of_absent habs]
    rw [ih (m ++ [(dedupKey d, d)]) ?_]
    · simp
    · rw [List.nodup_append]
      refine ⟨?_, htl, ?_⟩
      · rw [List.map_append, List.nodup_append]
        refine ⟨hm, by simp, ?_⟩
        intro x hx hk
        simp only [List.map_cons, List.map_nil, List.mem_singleton] at hk
        subst hk
        exact hd_m hx
      · intro x hx hk
        rw [List.map_append] at hx
        rcases List.mem_append.mp hx with h' | h'
        · exact hdisj h' (List.mem_cons_of_mem _ hk)
        · simp only [List.map_cons, List.map_nil, List.mem_singleton] at h'
          subst h'
          exact hd_tl hk

/-- Deduplicating a list whose keys are already distinct changes nothing. -/
theorem deduplicateByValueAndLine_of_nodup {ds : List DateValue}
    (h : (ds.map dedupKey).Nodup) : deduplicateByValueAndLine ds = ds := by
  unfold deduplicateByValueAndLine
  rw [foldl_mapSet_fresh ds [] (by simpa using h)]
  simp only [List.nil_append, List.map_map]
  have : ds.map ((fun p : String × DateValue => p.2) ∘ fun d => (dedupKey d, d)) =
      ds.map id := List.map_congr_left fun a _ => rfl
  simpa using this

/-- The deduplicator is idempotent on its value lists. -/
theorem deduplicateByValueAndLine_idem (ds : List DateValue) :
    deduplicateByValueAndLine (deduplicateByValueAndLine ds) =
      deduplicateByValueAndLine ds :=
  deduplicateByValueAndLine_of_nodup (dedup_keys_nodup ds)

/-- In a distinct-key map, filtering by a present key finds one pair. -/
theorem filter_key_unique {m : List (String × DateValue)} {k : String}
    (hm : (m.map Prod.fst).Nodup) (h : (m.any fun p => p.1 = k) = true) :
    ∃ v, m.filter (fun p => p.1 = k) = [(k, v)] := by
  induction m with
  | nil => simp at h
  | cons a m ih =>
    simp only [List.map_cons, List.nodup_cons] at hm
    by_cases hak : a.1 = k
    · obtain ⟨a1, a2⟩ := a
      simp only at hak
      subst hak
      refine ⟨a2, ?_⟩
      have hnil : m.filter (fun p => p.1 = a1) = [] := by
        rw [List.filter_eq_nil_iff]
        intro q hq hqk
        simp only [decide_eq_true_eq] at hqk
        exact hm.1 (hqk ▸ List.mem_map.mpr ⟨q, hq, rfl⟩)
      simp [List.filter_cons, hnil]
    · have h' : (m.any fun p => p.1 = k) = true := by
        rcases List.any_eq_true.mp h with ⟨q, hq, hqk⟩
        rcases List.mem_cons.mp hq with rfl | hq'
        · exact absurd (by simpa using hqk) hak
        · exact List.any_eq_true.mpr ⟨q, hq', hqk⟩
      obtain ⟨v, hv⟩ := ih hm.2 h'
      exact ⟨v, by simp [List.filter_cons, hak, hv]⟩

/-- Filtering by key commutes with a key-preserving map. -/
theorem filter_key_map {m : List (String × DateValue)} {k : String}
    {f : String × DateValue → String × DateValue}
    (hf : ∀ p, (f p).1 = p.1) :
    (m.map f).filter (fun p => p.1 = k) =
      (m.filter (fun p => p.1 = k)).map f := by
  rw [List.filter_map]
  congr 1
  apply List.filter_congr
  intro p _
  simp [Function.comp, hf p]

/-- How one `Map.set` changes the entries filed under key `k`. -/
theorem mapSet_filter {m : List (String × DateValue)} {k k' : String}
    {v : DateValue} (hm : (m.map Prod.fst).Nodup) :
    (mapSet m k' v).filter (fun p => p.1 = k) =
      if k' = k then [(k, v)] else m.filter (fun p => p.1 = k) := by
  by_cases h : (m.any fun p => p.1 = k') = true
  · rw [mapSet_of_present h,
      filter_key_map (fun p => by by_cases hp : p.1 = k' <;> simp [hp])]
    by_cases hkk : k' = k
    · subst hkk
      obtain ⟨w, hw⟩ := filter_key_unique hm h
      rw [hw, if_pos rfl]
      simp
    · rw [if_neg hkk]
      apply (List.map_congr_left ?_).trans (List.map_id _)
      intro p hp
      have hpk := (List.mem_filter.mp hp).2
      simp only [decide_eq_true_eq] at hpk
      have hne : ¬(p.1 = k') := fun h' => hkk (by rw [← h', hpk])
      simp [hne]
  · rw [mapSet_of_absent (Bool.eq_false_iff.mpr h), List.filter_append]
    by_cases hkk : k' = k
    · subst hkk
      have hnil : m.filter (fun p => p.1 = k') = [] := by
        rw [List.filter_eq_nil_iff]
        intro q hq hqk
        exact h (List.any_eq_true.mpr ⟨q, hq, hqk⟩)
      simp [hnil]
    · simp [List.filter_cons, hkk]

/-- Shifting the start value of the keep-last fold. -/
theorem foldl_lastOpt_shift (P : DateValue → Prop) [DecidablePred P]
    (ds : List DateValue) :
    ∀ a, ds.foldl (fun acc d => if P d then some d else acc) a =
      match ds.foldl (fun acc d => if P d then some d else acc) none with
      | some x => some x
      | none => a := by
  induction ds with
  | nil => intro a; simp
  | cons d tl ih =>
    intro a
    simp only [List.foldl_cons]
    rw [ih (if P d then some d else a), ih (if P d then some d else none)]
    cases tl.foldl (fun acc d => if P d then some d else acc) none <;>
      by_cases hP : P d <;> simp [hP]

/-- `(a :: l).getLast?` as a fold step. -/
theorem getLast?_cons_eq (a : DateValue) (l : List DateValue) :
    (a :: l).getLast? =
      match l.getLast? with
      | some x => some x
      | none => some a := by
  induction l generalizing a with
  | nil => simp
  | cons b bs ih =>
    rw [List.getLast?_cons_cons, ih b]
    cases bs.getLast? <;> simp

/-- The keep-last fold computes the last entry satisfying `P`. -/
theorem foldl_lastOpt_eq_getLast_filter (P : DateValue → Prop) [DecidablePred P]
    (ds : List DateValue) :
    ds.foldl (fun acc d => if P d then some d else acc) none =
      (ds.filter fun d => P d).getLast? := by
  induction ds with
  | nil => simp
  | cons d tl ih =>
    simp only [List.foldl_cons]
    rw [foldl_lastOpt_shift, ih, List.filter_cons]
    by_cases hP : P d
    · rw [if_pos (show decide (P d) = true by simpa using hP), getLast?_cons_eq]
      generalize (tl.filter fun d => decide (P d)).getLast? = X
      cases X <;> simp [hP]
    · rw [if_neg (show ¬decide (P d) = true by simpa using hP)]
      generalize (tl.filter fun d => decide (P d)).getLast? = X
      cases X <;> simp [hP]

/-- The entries of the dedup fold filed under key `k`: the last input with
that key, or whatever the accumulator already held. -/
theorem foldl_mapSet_filter (k : String) (ds : List DateValue) :
    ∀ m, KeysOk m →
      (ds.foldl (fun acc d => mapSet acc (dedupKey d) d) m).filter
          (fun p => p.1 = k) =
        match ds.foldl
            (fun acc d => if dedupKey d = k then some d else acc) none with
        | some x => [(k, x)]
        | none => m.filter (fun p => p.1 = k) := by
  induction ds with
  | nil => intro m _; simp
  | cons d tl ih =>
    intro m hm
    simp only [List.foldl_cons]
    rw [ih _ (keysOk_mapSet hm rfl), mapSet_filter hm.1,
      foldl_lastOpt_shift (fun d => dedupKey d = k) tl
        (if dedupKey d = k then some d else none)]
    cases tl.foldl (fun acc d => if dedupKey d = k then some d else acc) none with
    | some x => rfl
    | none => by_cases hdk : dedupKey d = k <;> simp [hdk]

/-- `deduplicateByValueAndLine` keeps, for every key, exactly the last input
entry with that key. -/
theorem deduplicateByValueAndLine_filter (ds : List DateValue) (k : String) :
    (deduplicateByValueAndLine ds).filter (fun d => dedupKey d = k) =
      ((ds.filter fun d => dedupKey d = k).getLast?).toList := by
  unfold deduplicateByValueAndLine
  have hmk := keysOk_foldl ds [] keysOk_nil
  rw [List.filter_map]
  have hcongr :
      (ds.foldl (fun m date => mapSet m (dedupKey date) date) []).filter
          ((fun d => decide (dedupKey d = k)) ∘ fun x => x.2) =
        (ds.foldl (fun m date => mapSet m (dedupKey date) date) []).filter
          (fun p => p.1 = k) := by
    apply List.filter_congr
    intro p hp
    simp [Function.comp, hmk.2 p hp]
  rw [hcongr, foldl_mapSet_filter k ds [] keysOk_nil,
    ← foldl_lastOpt_eq_getLast_filter (fun d => dedupKey d = k)]
  cases ds.foldl (fun acc d => if dedupKey d = k then some d else acc) none <;>
    simp

/-! ## Helper lemmas about the overlap filter -/

/-- The condition under which `filterOverlappingDates` drops a match. -/
def DroppedByOverlap (ds : List DateValue) (d : DateValue) : Prop :=
  d.format = .simple ∧ ∃ p, d.position = some p ∧
    ∃ o, o ∈ ds ∧ o.format = .iso ∧
      (∃ q, o.position = some q ∧ q.line = p.line) ∧
      strIncludes o.value d.value = true

/-- The `some` test of the overlap filter, characterised. -/
theorem overlapAny_iff (ds : List DateValue) (d : DateValue) (p : Position) :
    (ds.any fun other =>
        other.format = .iso &&
        (match other.position with
         | some q => q.line = p.line
         | none => false) &&
        strIncludes other.value d.value) = true ↔
      ∃ o, o ∈ ds ∧ o.format = .iso ∧
        (∃ q, o.position = some q ∧ q.line = p.line) ∧
        strIncludes o.value d.value = true := by
  rw [List.any_eq_true]
  constructor
  · rintro ⟨o, ho, hcond⟩
    simp only [Bool.and_eq_true, decide_eq_true_eq] at hcond
    obtain ⟨⟨hfmt, hpos⟩, hinc⟩ := hcond
    refine ⟨o, ho, hfmt, ?_, hinc⟩
    cases hq : o.position with
    | none => rw [hq] at hpos; simp at hpos
    | some q =>
      rw [hq] at hpos
      simp only [decide_eq_true_eq] at hpos
      exact ⟨q, rfl, hpos⟩
  · rintro ⟨o, ho, hfmt, ⟨q, hq, hline⟩, hinc⟩
    refine ⟨o, ho, ?_⟩
    simp only [Bool.and_eq_true, decide_eq_true_eq]
    exact ⟨⟨hfmt, by rw [hq]; simpa using hline⟩, hinc⟩

/-- `overlapKeep` keeps exactly the matches not dropped by the overlap rule. -/
theorem overlapKeep_iff (ds : List DateValue) (d : DateValue) :
    overlapKeep ds d = true ↔ ¬DroppedByOverlap ds d := by
  unfold overlapKeep DroppedByOverlap
  by_cases hf : d.format = DateFormat.simple
  · rw [if_neg (by simpa using hf)]
    cases hp : d.position with
    | none => simp [hf]
    | some p =>
      simp only [Bool.not_eq_true']
      rw [Bool.eq_false_iff]
      constructor
      · intro hany
        rintro ⟨_, p', hp', hex⟩
        injection hp' with hp'
        subst hp'
        exact hany ((overlapAny_iff ds d p).mpr hex)
      · intro hcl hany
        exact hcl ⟨hf, p, rfl, (overlapAny_iff ds d p).mp hany⟩
  · rw [if_pos (by simpa using hf)]
    constructor
    · intro _ hdrop
      exact hf hdrop.1
    · intro _
      rfl

/-- A match dropped relative to a sublist is dropped relative to the list. -/
theorem overlapKeep_mono {ds' ds : List DateValue}
    (hsub : ∀ x, x ∈ ds' → x ∈ ds) {d : DateValue}
    (hd : overlapKeep ds d = true) : overlapKeep ds' d = true := by
  rw [overlapKeep_iff] at hd ⊢
  intro hdrop
  obtain ⟨hf, p, hp, o, ho, hrest⟩ := hdrop
  exact hd ⟨hf, p, hp, o, hsub o ho, hrest⟩

/-- The generic dedup output never re-triggers the overlap rule. -/
theorem filterOverlapping_deduplicateDates (ds : List DateValue) :
    filterOverlappingDates (deduplicateDates ds) = deduplicateDates ds := by
  apply List.filter_eq_self.mpr
  intro x hx
  have hxf : x ∈ filterOverlappingDates ds :=
    mem_of_mem_deduplicateByValueAndLine hx
  have hxkeep := (List.mem_filter.mp hxf).2
  exact overlapKeep_mono
    (fun y hy =>
      (List.mem_filter.mp (mem_of_mem_deduplicateByValueAndLine hy)).1)
    hxkeep

/-! ## The claims -/

/-- **C8**: the Overlap Resolver & Deduplicator is idempotent: applying
`deduplicateDates` to its own output returns that output unchanged. -/
theorem dates_C8_deduplicateDates_idempotent (ds : List DateValue) :
    deduplicateDates (deduplicateDates ds) = deduplicateDates ds := by
  show deduplicateByValueAndLine (filterOverlappingDates (deduplicateDates ds)) =
    deduplicateDates ds
  rw [filterOverlapping_deduplicateDates]
  exact deduplicateByValueAndLine_of_nodup
    (dedup_keys_nodup (filterOverlappingDates ds))

/-- **C1**: the generic line scanner returns the raw per-line match list
after (a) dropping every `simple` match whose line also has an `iso` match
textually containing its value, then (b) collapsing to at most one entry per
(value, line) key keeping the last-seen entry; in particular a line holding
`2023-12-25T10:30:00Z` (and hence `2023-12-25`) yields the ISO match and no
simple match, even though the raw match list contains both. -/
theorem dates_C1_scanner_dedup_pipeline :
    (∀ (dp : String → JsNum) (content : String),
      extractDatesFromLines dp content =
        deduplicateByValueAndLine
          (filterOverlappingDates (rawLineMatches dp content)))
    ∧ (∀ (ds : List DateValue) (d : DateValue),
        d ∈ filterOverlappingDates ds ↔ d ∈ ds ∧ ¬DroppedByOverlap ds d)
    ∧ (∀ (ds : List DateValue) (k : String),
        (deduplicateByValueAndLine ds).filter (fun d => dedupKey d = k) =
          ((ds.filter fun d => dedupKey d = k).getLast?).toList)
    ∧ rawLineMatches dpNan "ts: 2023-12-25T10:30:00Z end" =
        [{ value := "2023-12-25T10:30:00Z", format := .iso,
           timestamp := some .nan, position := some ⟨1, 5⟩,
           context := some "ts: 2023-12-25T10:30:00Z end" },
         { value := "2023-12-25", format := .simple, timestamp := some .nan,
           position := some ⟨1, 5⟩,
           context := some "ts: 2023-12-25T10:30:00Z end" }]
    ∧ extractDatesFromLines dpNan "ts: 2023-12-25T10:30:00Z end" =
        [{ value := "2023-12-25T10:30:00Z", format := .iso,
           timestamp := some .nan, position := some ⟨1, 5⟩,
           context := some "ts: 2023-12-25T10:30:00Z end" }] := by
  refine ⟨fun dp content => rfl, ?_, ?_, by decide, by decide⟩
  · intro ds d
    constructor
    · intro h
      have h' := List.mem_filter.mp h
      exact ⟨h'.1, (overlapKeep_iff ds d).mp h'.2⟩
    · intro h
      exact List.mem_filter.mpr ⟨h.1, (overlapKeep_iff ds d).mpr h.2⟩
  · exact deduplicateByValueAndLine_filter

/-- **C1 witness**: the characterisation applied at a concrete list: the
embedded simple match is dropped, the ISO match survives. -/
theorem dates_C1_witness :
    ({ value := "2023-12-25", format := .simple, timestamp := some JsNum.nan,
       position := some ⟨1, 5⟩,
       context := some "ts: 2023-12-25T10:30:00Z end" } : DateValue) ∉
      filterOverlappingDates
        (rawLineMatches dpNan "ts: 2023-12-25T10:30:00Z end") := by
  intro hmem
  have hchar :=
    (dates_C1_scanner_dedup_pipeline.2.1
      (rawLineMatches dpNan "ts: 2023-12-25T10:30:00Z end")
      { value := "2023-12-25", format := .simple, timestamp := some JsNum.nan,
        position := some ⟨1, 5⟩,
        context := some "ts: 2023-12-25T10:30:00Z end" }).mp hmem
  apply hchar.2
  refine ⟨rfl, ⟨1, 5⟩, rfl,
    { value := "2023-12-25T10:30:00Z", format := .iso, timestamp := some .nan,
      position := some ⟨1, 5⟩,
      context := some "ts: 2023-12-25T10:30:00Z end" }, ?_, rfl,
    ⟨⟨1, 5⟩, rfl, rfl⟩, by decide⟩
  rw [dates_C1_scanner_dedup_pipeline.2.2.2.1]
  decide

/-- **C2**: a 10-to-13-digit numeric token found by the generic scanner is
emitted as a `unix` `DateValue` exactly when its integer value lies in the
plausible seconds or milliseconds range; the stored timestamp is `v * 1000`
for a 10-digit token and `v` otherwise; `999999999` and `10000000000000`
yield nothing while `1703508600` and `1703508600000` both store
`1703508600000`. -/
theorem dates_C2_unix_timestamp_policy :
    (∀ (line : String) (i : Nat) (m : Nat × String),
      m ∈ scanWith unixRest line.data 0 →
        ((∃ d, d ∈ extractUnixTimestamp line i ∧ d.value = m.2 ∧
            d.position = some ⟨i + 1, m.1 + 1⟩ ∧
            d.timestamp = some (.int
              (if m.2.length = 10 then strToInt m.2 * 1000 else strToInt m.2))) ↔
          ((1000000000 < strToInt m.2 ∧ strToInt m.2 < 9999999999) ∨
           (1000000000000 < strToInt m.2 ∧ strToInt m.2 < 9999999999999))))
    ∧ extractUnixTimestamp "999999999" 0 = []
    ∧ extractUnixTimestamp "10000000000000" 0 = []
    ∧ extractUnixTimestamp "1703508600" 0 =
        [{ value := "1703508600", format := .unix,
           timestamp := some (.int 1703508600000), position := some ⟨1, 1⟩,
           context := some "1703508600" }]
    ∧ extractUnixTimestamp "1703508600000" 0 =
        [{ value := "1703508600000", format := .unix,
           timestamp := some (.int 1703508600000), position := some ⟨1, 1⟩,
           context := some "1703508600000" }] := by
  refine ⟨?_, by decide, by decide, by decide, by decide⟩
  intro line i m hm
  constructor
  · rintro ⟨d, hd, hval, _, _⟩
    obtain ⟨a, ha, hfa⟩ := List.mem_filterMap.mp hd
    by_cases hv : isValidUnixTimestamp (strToInt a.2) = true
    · have hfa' : (⟨a.2, .unix,
          some (.int (convertToMilliseconds a.2 (strToInt a.2))),
          some ⟨i + 1, a.1 + 1⟩, some (jsTrim line)⟩ : DateValue) = d := by
        simpa [hv] using hfa
      have hda : d.value = a.2 := by rw [← hfa']
      rw [hval] at hda
      rw [← hda] at hv
      simpa [isValidUnixTimestamp, Bool.or_eq_true, Bool.and_eq_true,
        decide_eq_true_eq] using hv
    · exfalso
      rw [if_pos (by simpa using hv)] at hfa
      exact Option.noConfusion hfa
  · intro hrange
    have hv : isValidUnixTimestamp (strToInt m.2) = true := by
      simpa [isValidUnixTimestamp, Bool.or_eq_true, Bool.and_eq_true,
        decide_eq_true_eq] using hrange
    refine ⟨⟨m.2, .unix,
        some (.int (convertToMilliseconds m.2 (strToInt m.2))),
        some ⟨i + 1, m.1 + 1⟩, some (jsTrim line)⟩,
      List.mem_filterMap.mpr ⟨m, hm, ?_⟩, rfl, rfl, ?_⟩
    · simp [hv]
    · simp [convertToMilliseconds]

/-- **C2 witness**: the characterisation applied to the 13-digit match that
the scanner finds in `10000000000000`, whose value `1000000000000` fails
both strict ranges, so no `DateValue` carries it. -/
theorem dates_C2_witness :
    ¬(∃ d, d ∈ extractUnixTimestamp "10000000000000" 0 ∧
        d.value = "1000000000000" ∧ d.position = some ⟨1, 1⟩ ∧
        d.timestamp = some (.int
          (if ("1000000000000" : String).length = 10 then
            strToInt "1000000000000" * 1000 else strToInt "1000000000000"))) := by
  intro hex
  have hiff :=
    (dates_C2_unix_timestamp_policy.1 "10000000000000" 0 (0, "1000000000000")
      (by decide)).mp hex
  revert hiff
  decide

/-- **C3**: every `ExtractionResult` the router returns satisfies: failure
implies no dates and at least one error; success implies no errors; and a
scan finding zero dates is a success with empty `dates` and `errors`.
The first part quantifies over an arbitrary (possibly throwing) scanning
step, covering the `catch` path. -/
theorem dates_C3_result_invariant :
    (∀ (scan : String → FileType → Except JsError (List DateValue)) (now : Int)
        (content languageId : String),
      ((extractDatesWith scan now content languageId).success = false →
        (extractDatesWith scan now content languageId).dates = [] ∧
        (extractDatesWith scan now content languageId).errors ≠ []) ∧
      ((extractDatesWith scan now content languageId).success = true →
        (extractDatesWith scan now content languageId).errors = []))
    ∧ (∀ (dp : String → JsNum) (currentYear now : Int),
        extractDates dp currentYear now "" "json" =
          { success := true, dates := [], errors := [] }) := by
  constructor
  · intro scan now content languageId
    unfold extractDatesWith
    by_cases hft : determineFileType languageId = .unknown
    · rw [if_pos hft]
      simp [createEmptyResult]
    · rw [if_neg hft]
      cases scan content (determineFileType languageId) with
      | ok ds => simp [createSuccessResult]
      | error e => simp [createErrorResult]
  · intro dp currentYear now
    rfl

/-- **C3 witness**: the invariant applied to a concrete failing scan. -/
theorem dates_C3_witness :
    (extractDatesWith (fun _ _ => .error (.error "boom")) 0 "x" "json").dates =
        [] ∧
      (extractDatesWith (fun _ _ => .error (.error "boom")) 0 "x" "json").errors
        ≠ [] :=
  (dates_C3_result_invariant.1 (fun _ _ => .error (.error "boom")) 0 "x"
    "json").1 (by decide)

/-- **C7**: a format hint outside the ten recognised language ids maps to
`unknown` and short-circuits to the canonical empty success result — for
every scanning step `scan`, so no scanner is ever consulted. -/
theorem dates_C7_unknown_hint_short_circuit :
    ∀ (scan : String → FileType → Except JsError (List DateValue)) (now : Int)
      (content languageId : String),
      languageId ∉ (["json", "yaml", "yml", "csv", "xml", "log", "plaintext",
        "javascript", "typescript", "html"] : List String) →
      extractDatesWith scan now content languageId = createEmptyResult := by
  intro scan now content languageId hl
  simp only [List.mem_cons, List.not_mem_nil, or_false, not_or] at hl
  obtain ⟨h1, h2, h3, h4, h5, h6, h7, h8, h9, h10⟩ := hl
  have hft : determineFileType languageId = .unknown := by
    unfold determineFileType
    simp [h1, h2, h3, h4, h5, h6, h7, h8, h9, h10]
  unfold extractDatesWith
  rw [hft]
  simp

/-- **C7 witness**: the hint `binary` short-circuits even when the scanner
would have produced dates. -/
theorem dates_C7_witness :
    ("binary" : String) ∉ (["json", "yaml", "yml", "csv", "xml", "log",
        "plaintext", "javascript", "typescript", "html"] : List String) ∧
      extractDatesWith
        (fun _ _ => .ok [⟨"2023-12-25", .simple, none, none, none⟩]) 0
        "2023-12-25" "binary" = createEmptyResult :=
  ⟨by decide,
   dates_C7_unknown_hint_short_circuit
     (fun _ _ => .ok [⟨"2023-12-25", .simple, none, none, none⟩]) 0
     "2023-12-25" "binary" (by decide)⟩

/-- A closed locale environment for concrete test inputs. -/
def envZero : JsDateEnv :=
  ⟨fun _ => 0, fun _ => 0, fun _ => 0, fun _ => 0, fun _ => 0⟩

/-- A `DateValue` whose `timestamp` is present but `NaN` (the result of an
unparseable value). -/
def nanEntry : DateValue := ⟨"not-a-date", .custom, some .nan, none, none⟩

/-- **C4 counterexample**: on the non-empty all-unparseable input
`[nanEntry]`, `calculateDateStatistics` does not return an all-zero record:
`total` and `duplicates` are the input length, not zero. -/
theorem dates_C4_counterexample :
    nanEntry.timestamp = some .nan ∧ statsValidDates [nanEntry] = [] ∧
      (calculateDateStatistics envZero [nanEntry]).total = 1 ∧
      (calculateDateStatistics envZero [nanEntry]).duplicates = 1 ∧
      ¬((calculateDateStatistics envZero [nanEntry]).total = 0) := by
  decide

/-- **C4 (amended)**: `calculateDateStatistics` on the empty sequence returns
the all-zero/all-null record; on a non-empty sequence with no parseable
timestamp it returns `total = n`, `unique = 0`, `duplicates = n`, and every
derived date field `null` (with empty histograms) — not an all-zero record. -/
theorem dates_C4_statistics_degenerate_inputs :
    (∀ env : JsDateEnv, calculateDateStatistics env [] = emptyStatistics)
    ∧ (∀ (env : JsDateEnv) (dates : List DateValue), dates ≠ [] →
        statsValidDates dates = [] →
        calculateDateStatistics env dates =
          { emptyStatistics with
            total := dates.length,
            duplicates := (dates.length : Int) }) := by
  constructor
  · intro env
    rfl
  · intro env dates hne hvd
    have h0 : ¬(dates.length = 0) := fun h => hne (List.length_eq_zero.mp h)
    simp [calculateDateStatistics, hvd, h0]

/-- **C4 witness**: the amended statement applied to `[nanEntry]`. -/
theorem dates_C4_witness :
    calculateDateStatistics envZero [nanEntry] =
      { emptyStatistics with total := 1, duplicates := 1 } :=
  dates_C4_statistics_degenerate_inputs.2 envZero [nanEntry] (by decide)
    (by decide)

/-! ## Helper lemmas about the anomaly passes -/

/-- Invert `(if c then some r else none) = some y`. -/
theorem ifSome_inv {c : Prop} [Decidable c] {β : Type} {r y : β}
    (h : (if c then some r else none) = some y) : y = r := by
  by_cases hc : c
  · rw [if_pos hc] at h
    exact (Option.some.injEq _ _ ▸ h).symm
  · rw [if_neg hc] at h
    exact absurd h (by simp)

/-- Invert `(if c then x else none) = some y`. -/
theorem ifOpt_inv {c : Prop} [Decidable c] {β : Type} {x : Option β} {y : β}
    (h : (if c then x else none) = some y) : x = some y := by
  by_cases hc : c
  · rwa [if_pos hc] at h
  · rw [if_neg hc] at h
    exact absurd h (by simp)

theorem mem_futurePass_type {now : Int} {ds : List DateValue} {a : DateAnomaly}
    (h : a ∈ futurePass now ds) : a.type = .future := by
  obtain ⟨d, _, hfd⟩ := List.mem_filterMap.mp h
  rw [ifSome_inv (ifOpt_inv hfd)]

theorem mem_outlierPass_type {ds : List DateValue} {a : DateAnomaly}
    (h : a ∈ outlierPass ds) : a.type = .outlier := by
  simp only [outlierPass] at h
  split at h
  · obtain ⟨d, _, hfd⟩ := List.mem_filterMap.mp h
    rw [ifSome_inv hfd]
  · simp at h

theorem mem_formatPass_type {ds : List DateValue} {a : DateAnomaly}
    (h : a ∈ formatPass ds) : a.type = .formatInconsistent := by
  simp only [formatPass] at h
  split at h
  · split at h
    · simp at h
    · obtain ⟨d, _, hfd⟩ := List.mem_filterMap.mp h
      rw [ifSome_inv hfd]
  · simp at h

/-- Membership in the invalid pass, characterised. -/
theorem mem_invalidPass_iff {ds : List DateValue} {a : DateAnomaly} :
    a ∈ invalidPass ds ↔
      ∃ d, d ∈ ds ∧
        (jsTruthy d.timestamp && (newJsDateOpt d.timestamp).isNaN) = true ∧
        a = ⟨.invalid, d, "high", "Invalid date format: " ++ d.value,
          some "Check date format and ensure it matches expected pattern"⟩ := by
  constructor
  · intro h
    obtain ⟨d, hd, hfd⟩ := List.mem_filterMap.mp h
    by_cases hc :
        (jsTruthy d.timestamp && (newJsDateOpt d.timestamp).isNaN) = true
    · rw [if_pos hc] at hfd
      exact ⟨d, hd, hc, (Option.some.injEq _ _ ▸ hfd).symm⟩
    · rw [if_neg hc] at hfd
      exact absurd hfd (by simp)
  · rintro ⟨d, hd, hc, rfl⟩
    exact List.mem_filterMap.mpr ⟨d, hd, by rw [if_pos hc]⟩

/-- The truthiness-then-`NaN` test of the invalid pass holds exactly for a
finite, non-zero timestamp outside the representable `Date` range. -/
theorem invalidCond_iff (d : DateValue) :
    (jsTruthy d.timestamp && (newJsDateOpt d.timestamp).isNaN) = true ↔
      ∃ v : Int, d.timestamp = some (.int v) ∧ v ≠ 0 ∧
        maxDateMs < v.natAbs := by
  cases hts : d.timestamp with
  | none => simp [jsTruthy]
  | some t =>
    cases t with
    | nan => simp [jsTruthy, JsNum.truthy, newJsDateOpt, newJsDate, JsNum.isNaN]
    | int v =>
      by_cases hv : v.natAbs ≤ maxDateMs
      · simp [jsTruthy, JsNum.truthy, newJsDateOpt, newJsDate, JsNum.isNaN, hv,
          Nat.not_lt.mpr hv]
      · by_cases hv0 : v = 0
        · subst hv0
          simp at hv
        · simp [jsTruthy, JsNum.truthy, newJsDateOpt, newJsDate, JsNum.isNaN,
            hv, hv0, Nat.lt_of_not_le hv]

/-- **C5 counterexample**: an entry whose `timestamp` is present but `NaN`
receives no anomaly at all — the falsy `NaN` fails the truthiness guard
before the `Number.isNaN` test can fire, so no high-severity `invalid`
anomaly is emitted for it. -/
theorem dates_C5_counterexample :
    nanEntry.timestamp = some .nan ∧
      (newJsDateOpt nanEntry.timestamp).isNaN = true ∧
      detectDateAnomalies 0 [nanEntry] = [] := by
  decide

/-- **C5 (amended)**: `detectDateAnomalies` emits a high-severity `invalid`
anomaly exactly for the entries whose timestamp is a finite, non-zero
number outside the representable `Date` range (`|v| > 8.64e15`); an entry
whose timestamp is the `NaN`-equivalent (or `0`) is skipped by the
truthiness guard and never flagged. -/
theorem dates_C5_invalid_anomaly_characterisation :
    ∀ (now : Int) (ds : List DateValue) (d : DateValue),
      (∃ a, a ∈ detectDateAnomalies now ds ∧ a.type = .invalid ∧ a.date = d ∧
        a.severity = "high") ↔
      (d ∈ ds ∧ ∃ v : Int, d.timestamp = some (.int v) ∧ v ≠ 0 ∧
        maxDateMs < v.natAbs) := by
  intro now ds d
  constructor
  · rintro ⟨a, ha, htype, hdate, _⟩
    unfold detectDateAnomalies at ha
    rcases List.mem_append.mp ha with ha' | hfp
    on_goal 2 => exact absurd (mem_formatPass_type hfp) (by rw [htype]; simp)
    rcases List.mem_append.mp ha' with ha'' | hop
    on_goal 2 => exact absurd (mem_outlierPass_type hop) (by rw [htype]; simp)
    rcases List.mem_append.mp ha'' with hfu | hiv
    on_goal 1 => exact absurd (mem_futurePass_type hfu) (by rw [htype]; simp)
    obtain ⟨d', hd', hc, rfl⟩ := mem_invalidPass_iff.mp hiv
    have hdd : d' = d := hdate
    subst hdd
    exact ⟨hd', (invalidCond_iff d').mp hc⟩
  · rintro ⟨hd, v, hts, hv0, hvr⟩
    refine ⟨⟨.invalid, d, "high", "Invalid date format: " ++ d.value,
      some "Check date format and ensure it matches expected pattern"⟩,
      ?_, rfl, rfl, rfl⟩
    unfold detectDateAnomalies
    refine List.mem_append.mpr (Or.inl (List.mem_append.mpr (Or.inl
      (List.mem_append.mpr (Or.inr ?_)))))
    exact mem_invalidPass_iff.mpr
      ⟨d, hd, (invalidCond_iff d).mpr ⟨v, hts, hv0, hvr⟩, rfl⟩

/-- **C5 witness**: the characterisation applied to a concrete entry with a
finite out-of-range timestamp, which does get the `invalid` flag. -/
theorem dates_C5_witness :
    ∃ a, a ∈ detectDateAnomalies 0
        [⟨"9999999999999999", .unix, some (.int 9999999999999999), none,
          none⟩] ∧
      a.type = .invalid ∧
      a.date = ⟨"9999999999999999", .unix, some (.int 9999999999999999), none,
        none⟩ ∧
      a.severity = "high" :=
  (dates_C5_invalid_anomaly_characterisation 0
    [⟨"9999999999999999", .unix, some (.int 9999999999999999), none, none⟩]
    ⟨"9999999999999999", .unix, some (.int 9999999999999999), none,
      none⟩).mpr
    ⟨by decide, 9999999999999999, rfl, by decide, by decide⟩

/-- An entry at the epoch instant: `timestamp` is exactly `0`. -/
def zeroEntry : DateValue :=
  ⟨"1970-01-01T00:00:00Z", .iso, some (.int 0), none, none⟩

/-- **C10**: every analysis function tests timestamp presence by numeric
truthiness, so an entry whose timestamp is exactly `0` (the epoch) or the
`NaN`-equivalent is excluded from every valid-date computation
(`calculateDateStatistics`, `detectDateAnomalies`, `detectDatePatterns`,
`clusterDates`, `detectDateGaps`); and the explicit `NaN` check of the
invalid pass can only ever fire on a non-zero finite timestamp, never on
`NaN` itself. -/
theorem dates_C10_truthiness_excludes_zero_and_nan :
    (∀ (ds : List DateValue) (e : DateValue),
      (e.timestamp = some (.int 0) ∨ e.timestamp = some .nan) →
        statsValidDates (ds ++ [e]) = statsValidDates ds ∧
        anomaliesValidDates (ds ++ [e]) = anomaliesValidDates ds ∧
        patternsValidDates (ds ++ [e]) = patternsValidDates ds ∧
        gapsValidDates (ds ++ [e]) = gapsValidDates ds ∧
        ∀ toIso : Int → String,
          clusterDates toIso (ds ++ [e]) = clusterDates toIso ds)
    ∧ (∀ (now : Int) (ds : List DateValue) (a : DateAnomaly),
        a ∈ detectDateAnomalies now ds → a.type = .invalid →
        ∃ v : Int, a.date.timestamp = some (.int v) ∧ v ≠ 0) := by
  constructor
  · intro ds e he
    have htruthy : jsTruthy e.timestamp = false := by
      rcases he with h | h <;> simp [h, jsTruthy, JsNum.truthy]
    have hstats : statsValidDates (ds ++ [e]) = statsValidDates ds := by
      simp [statsValidDates, htruthy]
    have hanom : anomaliesValidDates (ds ++ [e]) = anomaliesValidDates ds := by
      simp [anomaliesValidDates, htruthy]
    have hpat : patternsValidDates (ds ++ [e]) = patternsValidDates ds := by
      simp [patternsValidDates, htruthy]
    refine ⟨hstats, hanom, hpat, ?_, ?_⟩
    · simp [gapsValidDates, htruthy]
    · intro toIso
      unfold clusterDates
      rw [hpat]
  · intro now ds a ha htype
    unfold detectDateAnomalies at ha
    rcases List.mem_append.mp ha with ha' | hfp
    on_goal 2 => exact absurd (mem_formatPass_type hfp) (by rw [htype]; simp)
    rcases List.mem_append.mp ha' with ha'' | hop
    on_goal 2 => exact absurd (mem_outlierPass_type hop) (by rw [htype]; simp)
    rcases List.mem_append.mp ha'' with hfu | hiv
    on_goal 1 => exact absurd (mem_futurePass_type hfu) (by rw [htype]; simp)
    obtain ⟨d', _, hc, rfl⟩ := mem_invalidPass_iff.mp hiv
    obtain ⟨v, hts, hv0, _⟩ := (invalidCond_iff d').mp hc
    exact ⟨v, hts, hv0⟩

/-- **C10 witness**: the exclusions applied to a concrete pair of entries:
the epoch-instant entry is dropped from every valid-date list. -/
theorem dates_C10_witness :
    statsValidDates [nanEntry, zeroEntry] = statsValidDates [nanEntry] ∧
      gapsValidDates [nanEntry, zeroEntry] = gapsValidDates [nanEntry] ∧
      clusterDates (fun _ => "") [nanEntry, zeroEntry] =
        clusterDates (fun _ => "") [nanEntry] := by
  have h := dates_C10_truthiness_excludes_zero_and_nan.1 [nanEntry] zeroEntry
    (Or.inl rfl)
  exact ⟨h.1, h.2.2.2.1, h.2.2.2.2 (fun _ => "")⟩

/-- Does a whole string match one of the six generic date shapes (the
matcher consumes it with nothing left over)? -/
def genericFullMatch (s : String) : Bool :=
  [isoRest, rfc2822Rest, unixRest, utcRest, localRest, simpleRest].any
    fun t => t s.data = some []

/-- **C6 counterexample**: the log-line matcher classifies the timestamp
`2023-12-25 10:30:00` as `iso`, not `custom`, although the value matches no
generic shape in full. -/
theorem dates_C6_counterexample :
    (extractLogFormat dpNan "2023-12-25 10:30:00" 0).map
        (fun d => d.format) = [.iso] ∧
      genericFullMatch "2023-12-25 10:30:00" = false ∧
      DateFormat.iso ≠ DateFormat.custom := by
  decide

/-- **C6 (amended)**: the syslog and Apache matchers of the log scanner and
every HTML-markup and JavaScript code-idiom matcher (all of which run
through `customFromScan`) classify their matches as `custom`; the log-line
matcher (`YYYY-MM-DD HH:MM:SS[.sss]`) instead classifies every match as
`iso` unconditionally, even when the value matches no generic shape in
full. -/
theorem dates_C6_format_specific_classification :
    (∀ (dp : String → JsNum) (currentYear : Int) (line : String)
        (i : Nat) (d : DateValue),
      d ∈ extractSyslogFormat dp currentYear line i → d.format = .custom)
    ∧ (∀ (dp : String → JsNum) (line : String) (i : Nat) (d : DateValue),
        d ∈ extractApacheFormat dp line i → d.format = .custom)
    ∧ (∀ (dp : String → JsNum) (line : String) (i : Nat)
        (ms : List (Nat × String × String)) (d : DateValue),
        d ∈ customFromScan dp line i ms → d.format = .custom)
    ∧ (∀ (dp : String → JsNum) (line : String) (i : Nat) (d : DateValue),
        d ∈ extractLogFormat dp line i → d.format = .iso) := by
  refine ⟨?_, ?_, ?_, ?_⟩
  · intro dp currentYear line i d hd
    obtain ⟨m, _, hfm⟩ := List.mem_filterMap.mp hd
    by_cases hn : (dp (m.2 ++ " " ++ toString currentYear)).isNaN = true
    · rw [if_pos hn] at hfm
      exact absurd hfm (by simp)
    · rw [if_neg hn] at hfm
      have hr := (Option.some.injEq _ _).mp hfm
      rw [← hr]
  · intro dp line i d hd
    obtain ⟨m, _, rfl⟩ := List.mem_map.mp hd
    rfl
  · intro dp line i ms d hd
    obtain ⟨m, _, hfm⟩ := List.mem_filterMap.mp hd
    by_cases h0 : m.2.2 = ""
    · rw [if_pos h0] at hfm
      exact absurd hfm (by simp)
    · rw [if_neg h0] at hfm
      by_cases hn : (dp m.2.2).isNaN = true
      · rw [if_pos hn] at hfm
        exact absurd hfm (by simp)
      · rw [if_neg hn] at hfm
        have hr := (Option.some.injEq _ _).mp hfm
        rw [← hr]
  · intro dp line i d hd
    obtain ⟨m, _, rfl⟩ := List.mem_map.mp hd
    rfl

/-- **C6 witness**: the amended classification applied to concrete matches
of the Apache matcher and of the log-line matcher. -/
theorem dates_C6_witness :
    (∀ d, d ∈ extractApacheFormat dpNan "[25/Dec/2023:10:30:00 +0000]" 0 →
      d.format = .custom) ∧
    (∀ d, d ∈ extractLogFormat dpNan "2023-12-25 10:30:00" 0 →
      d.format = .iso) ∧
    (extractApacheFormat dpNan "[25/Dec/2023:10:30:00 +0000]" 0).length = 1 ∧
    (extractLogFormat dpNan "2023-12-25 10:30:00" 0).length = 1 :=
  ⟨fun d hd =>
    dates_C6_format_specific_classification.2.1 dpNan
      "[25/Dec/2023:10:30:00 +0000]" 0 d hd,
   fun d hd =>
    dates_C6_format_specific_classification.2.2.2 dpNan
      "2023-12-25 10:30:00" 0 d hd,
   by decide, by decide⟩

/-- **C9**: the HTML scanner applies neither overlap suppression nor
(value, line) dedup: a line holding `2023-12-25T10:30:00Z` yields both the
full `iso` match and the embedded `simple` match, and a value repeated on
one line yields one entry per occurrence — whereas the generic line scanner
on the same inputs suppresses the embedded simple match and collapses the
repeats to the last occurrence. -/
theorem dates_C9_html_no_overlap_no_dedup :
    (∀ dp : String → JsNum,
      extractFromHtml dp "2023-12-25T10:30:00Z" =
        [{ value := "2023-12-25T10:30:00Z", format := .iso,
           timestamp := some (dp "2023-12-25T10:30:00Z"),
           position := some ⟨1, 1⟩, context := some "2023-12-25T10:30:00Z" },
         { value := "2023-12-25", format := .simple,
           timestamp := some (dp "2023-12-25"),
           position := some ⟨1, 1⟩, context := some "2023-12-25T10:30:00Z" }])
    ∧ (∀ dp : String → JsNum,
        extractFromHtml dp "2023-12-25 2023-12-25" =
          [{ value := "2023-12-25", format := .simple,
             timestamp := some (dp "2023-12-25"),
             position := some ⟨1, 1⟩, context := some "2023-12-25 2023-12-25" },
           { value := "2023-12-25", format := .simple,
             timestamp := some (dp "2023-12-25"),
             position := some ⟨1, 12⟩,
             context := some "2023-12-25 2023-12-25" }])
    ∧ extractDatesFromLines dpNan "2023-12-25T10:30:00Z" =
        [{ value := "2023-12-25T10:30:00Z", format := .iso,
           timestamp := some .nan, position := some ⟨1, 1⟩,
           context := some "2023-12-25T10:30:00Z" }]
    ∧ extractDatesFromLines dpNan "2023-12-25 2023-12-25" =
        [{ value := "2023-12-25", format := .simple, timestamp := some .nan,
           position := some ⟨1, 12⟩,
           context := some "2023-12-25 2023-12-25" }] :=
  ⟨fun dp => rfl, fun dp => rfl, by decide, by decide⟩

end DatesLe
